import Mathlib

/-!
Verification development for a procedural LEMP + WordPress installer
(single Python source file).  The installer is embedded shallowly:

* the filesystem, the trace of spawned external commands, the trace of
  printed messages and the ghost bookkeeping live in `World`;
* the mutable global `state` dictionary of the program is `RunState`;
* every effectful Python function becomes a function in the monad `M`,
  which is explicit state passing plus exceptions (`Res`), mirroring
  Python semantics where mutations performed before a `raise` persist;
* external collaborators (package manager, MySQL client, network,
  archive layout, fault injection of OS errors) are an `Env` of oracles,
  since the spec treats them as opaque operations with a
  success/failure contract;
* wall-clock timestamps are modeled by a strictly increasing counter
  rendered through an injective encoding (`clockString`);
* logging is modeled as a trace of messages; purely diagnostic log lines
  with no specification relevance are elided.

Paths are modeled as component lists (`/var/www/x` is
`["var", "www", "x"]`).
-/

/-- A filesystem node: a directory, or a file with content and mode. -/
inductive FsNode where
  | dir : FsNode
  | file (content : String) (mode : Nat) : FsNode
deriving DecidableEq, Repr

/-- A filesystem path, as its list of components. -/
abbrev FPath := List String

/-- The filesystem: an association list from paths to nodes. -/
abbrev Fs := List (FPath × FsNode)

/-- Render a path the way the program prints it (leading slash). -/
def renderPath (p : FPath) : String :=
  String.intercalate "/" ("" :: p)

/-- Last component of a path (`Path.name` in the program). -/
def lastName (p : FPath) : String := p.getLastD ""

/-- Look a path up in the filesystem. -/
def fsLookup (fs : Fs) (p : FPath) : Option FsNode :=
  match fs with
  | [] => none
  | (q, n) :: rest => if q = p then some n else fsLookup rest p

/-- `Path.exists()`. -/
def fsExists (fs : Fs) (p : FPath) : Bool := (fsLookup fs p).isSome

/-- Create or overwrite an entry. -/
def fsSet (fs : Fs) (p : FPath) (n : FsNode) : Fs :=
  match fs with
  | [] => [(p, n)]
  | (q, m) :: rest => if q = p then (p, n) :: rest else (q, m) :: fsSet rest p n

/-- Remove exactly one entry (used for `os.unlink` / the rename source). -/
def fsRemoveEntry (fs : Fs) (p : FPath) : Fs :=
  fs.filter (fun e => ¬ e.1 = p)

/-- Is `q` equal to `p` or strictly below `p`? -/
def underPath (p q : FPath) : Bool := p.isPrefixOf q

/-- `shutil.rmtree`: remove an entry and everything below it. -/
def fsRmtree (fs : Fs) (p : FPath) : Fs :=
  fs.filter (fun e => ¬ underPath p e.1 = true)

/-- All the directories `Path.mkdir(parents=True)` would ensure:
every non-empty prefix of the path. -/
def ancestorPaths (p : FPath) : List FPath :=
  (List.range p.length).map (fun i => p.take (i + 1))

/-- Add a directory entry if the path is absent. -/
def fsEnsureDir (fs : Fs) (p : FPath) : Fs :=
  if fsExists fs p then fs else fsSet fs p .dir

/-- `Path.mkdir(parents=True, exist_ok=True)`. -/
def fsMkdirParents (fs : Fs) (p : FPath) : Fs :=
  (ancestorPaths p).foldl fsEnsureDir fs

/-- Injective rendering of the timestamp counter. -/
def clockString (n : Nat) : String := String.mk (List.replicate n 't')

/-! Structurally recursive equivalents of the string operations the
program uses (`endswith`, `lower`, `strip`, `replace`), defined over
the character list so that they compute by kernel reduction. -/

def strEndsWith (s suf : String) : Bool := suf.data.isSuffixOf s.data

def strStartsWith (s pre : String) : Bool := pre.data.isPrefixOf s.data

def charLower (c : Char) : Char :=
  if 65 ≤ c.toNat ∧ c.toNat ≤ 90 then Char.ofNat (c.toNat + 32) else c

def strLower (s : String) : String := String.mk (s.data.map charLower)

def isSpaceChar (c : Char) : Bool :=
  c = ' ' || c = Char.ofNat 9 || c = Char.ofNat 10 || c = Char.ofNat 13

def strTrim (s : String) : String :=
  String.mk ((((s.data.dropWhile isSpaceChar).reverse).dropWhile isSpaceChar).reverse)

/-- `str.replace`, fueled by the input length for structural recursion. -/
def replaceFuel : Nat → List Char → List Char → List Char → List Char
  | 0, l, _, _ => l
  | _ + 1, [], _, _ => []
  | fuel + 1, c :: rest, pat, rep =>
      if pat.isPrefixOf (c :: rest) then
        rep ++ replaceFuel fuel ((c :: rest).drop pat.length) pat rep
      else
        c :: replaceFuel fuel rest pat rep

def strReplace (s pat rep : String) : String :=
  String.mk (replaceFuel s.data.length s.data pat.data rep.data)

def strTake (s : String) (n : Nat) : String := String.mk (s.data.take n)

/-- Result of one external command, as `subprocess.CompletedProcess`. -/
structure CompletedProcess where
  args : String
  returncode : Nat
  stdout : String
  stderr : String
deriving DecidableEq, Repr

/-- The exceptions the program can raise. -/
inductive Err where
  | calledProcessError (returncode : Nat) (stderr : String)
  | runtimeError (msg : String)
  | keyError (key : String)
  | osError (msg : String)
deriving DecidableEq, Repr

/-- The per-run configuration dictionary built in `main`. -/
structure Cfg where
  domain : String
  email : String
  db_name : String
  db_user : String
  db_pass : String
  certbot : Bool
  dry_run : Bool
  overwrite : Bool
  php_version : String
  web_root : FPath
  nginx_conf : FPath
deriving DecidableEq, Repr

/-- The global mutable `state` dictionary. -/
structure RunState where
  created_paths : List FPath
  created_db : Bool
  db_name : Option String
  db_user : Option String
  nginx_conf_path : Option FPath
  web_root : Option FPath
  tmp_dirs : List FPath
  executing : Bool
  overwrite : Bool
  last_cfg : Option Cfg
deriving DecidableEq, Repr

/-- The initial value of the `state` dictionary. -/
def initRunState : RunState :=
  { created_paths := [], created_db := false, db_name := none,
    db_user := none, nginx_conf_path := none, web_root := none,
    tmp_dirs := [], executing := false, overwrite := false,
    last_cfg := none }

/-- Oracles for the external collaborators and OS fault injection. -/
structure Env where

  /-- exit code, stdout, stderr of a spawned command. -/
  cmdResult : String → Nat × String × String
  euid : Nat
  /-- response typed at the execute-mode confirmation prompt. -/
  userConfirm : String
  /-- `php -r` probe result, if the binary works. -/
  phpProbe : Option String
  /-- `apt-cache policy php-fpm` detected version, if any. -/
  phpAptPolicy : Option String
  /-- best version from `apt-cache search`, if any. -/
  phpAptSearch : Option String
  /-- WordPress version API: `(version, download url)` on success. -/
  wpApi : Option (String × String)
  downloadOk : String → Bool
  /-- raw bytes of a downloaded archive. -/
  archiveRaw : String → String
  /-- layout of an extracted archive: relative paths; `none` = extraction fails. -/
  archiveEntries : String → Option (List (FPath × FsNode))
  saltsOk : Bool
  /-- effect of replacing the salt block in `wp-config.php`. -/
  saltTransform : String → String
  /-- effect of the `re.sub` edits on `php.ini`. -/
  phpIniTransform : String → String
  /-- fault injection: writing this file raises an OSError mid-write. -/
  writeFails : FPath → Bool
  /-- content left behind by an interrupted write. -/
  partialData : String → String
  /-- fault injection: `os.chmod` on this path raises. -/
  chmodFails : FPath → Bool
  /-- fault injection: `shutil.rmtree` on this path raises. -/
  rmtreeFails : FPath → Bool
  /-- fault injection: `os.unlink` on this path raises. -/
  unlinkFails : FPath → Bool

/-- The observable world: filesystem, effect traces and ghost counters. -/
structure World where
  fs : Fs

  /-- trace of commands actually handed to the OS. -/
  spawned : List String
  /-- trace of log / dry-run messages. -/
  printed : List String
  /-- ghost trace: every `shutil.rmtree` attempt. -/
  rmtreeCalls : List FPath
  /-- ghost counter: invocations of the cleanup routine. -/
  cleanupCalls : Nat
  /-- counter behind `tempfile.mkdtemp` names. -/
  tmpCounter : Nat
  /-- counter behind `timestamp()`. -/
  clock : Nat

/-- Whole interpreter state: oracles, world, and the `state` dict. -/
structure S where
  env : Env
  world : World
  st : RunState

/-- Outcome of running a fragment: Python exceptions carry the state
reached at the raise point, since mutations before a raise persist. -/
inductive Res (α : Type) where
  | ok (a : α) (s : S)
  | err (e : Err) (s : S)

/-- The state reached by a computation, successful or not. -/
def Res.state : Res α → S
  | .ok _ s => s
  | .err _ s => s

/-- Did the computation finish without raising? -/
def Res.isOk : Res α → Bool
  | .ok _ _ => true
  | .err _ _ => false

/-- The embedding monad: explicit state passing plus exceptions. -/
def M (α : Type) : Type := S → Res α

def M.pure (a : α) : M α := fun s => .ok a s

def M.bind (m : M α) (f : α → M β) : M β := fun s =>
  match m s with
  | .ok a s' => f a s'
  | .err e s' => .err e s'

instance : Monad M where
  pure := M.pure
  bind := M.bind

/-- `raise`. -/
def throwM (e : Err) : M α := fun s => .err e s

/-- `try ... except Exception: handler`. -/
def tryCatchM (m : M α) (h : Err → M α) : M α := fun s =>
  match m s with
  | .ok a s' => .ok a s'
  | .err e s' => h e s'

def getS : M S := fun s => .ok s s

def modifyW (f : World → World) : M Unit := fun s =>
  .ok () { s with world := f s.world }

def modifySt (f : RunState → RunState) : M Unit := fun s =>
  .ok () { s with st := f s.st }

/-- Append one message to the log trace (pure state version). -/
def addPrintS (s : S) (msg : String) : S :=
  { s with world := { s.world with printed := s.world.printed ++ [msg] } }

/-- Append one command to the spawn trace (pure state version). -/
def addSpawnS (s : S) (cmd : String) : S :=
  { s with world := { s.world with spawned := s.world.spawned ++ [cmd] } }

def printM (msg : String) : M Unit := fun s => .ok () (addPrintS s msg)

/-- Default mode of a freshly created file, before any `chmod`. -/
def defaultCreateMode : Nat := 384

/-- `timestamp()`: strictly increasing counter, injectively rendered. -/
def timestampM : M String := fun s =>
  .ok (clockString s.world.clock)
    { s with world := { s.world with clock := s.world.clock + 1 } }

/-- `tempfile.mkdtemp(prefix=...)`: creates a fresh directory under /tmp. -/
def mkdtempM (pre : String) : M FPath := fun s =>
  let d : FPath := ["tmp", pre ++ toString s.world.tmpCounter]
  .ok d { s with world := { s.world with
      fs := fsSet s.world.fs d .dir,
      tmpCounter := s.world.tmpCounter + 1 } }

/-- `open(p, "w"); f.write(data)`: on an injected I/O fault the partial
content persists and an OSError is raised. -/
def fsWriteFileM (p : FPath) (data : String) : M Unit := fun s =>
  if s.env.writeFails p then
    .err (.osError "write failed")
      { s with world := { s.world with
          fs := fsSet s.world.fs p (.file (s.env.partialData data) defaultCreateMode) } }
  else
    .ok () { s with world := { s.world with
        fs := fsSet s.world.fs p (.file data defaultCreateMode) } }

/-- `os.chmod`. -/
def fsChmodM (p : FPath) (mode : Nat) : M Unit := fun s =>
  if s.env.chmodFails p then .err (.osError "chmod failed") s
  else
    match fsLookup s.world.fs p with
    | some (.file c _) =>
        .ok () { s with world := { s.world with fs := fsSet s.world.fs p (.file c mode) } }
    | some .dir => .ok () s
    | none => .err (.osError "chmod: no such file") s

/-- `os.replace(src, dst)`: one atomic step. -/
def fsReplaceM (src dst : FPath) : M Unit := fun s =>
  match fsLookup s.world.fs src with
  | none => .err (.osError "replace: no such file") s
  | some n =>
      .ok () { s with world := { s.world with
          fs := fsSet (fsRemoveEntry s.world.fs src) dst n } }

/-- `Path.mkdir(parents=True, exist_ok=True)` in the monad. -/
def fsMkdirParentsM (p : FPath) : M Unit :=
  modifyW (fun w => { w with fs := fsMkdirParents w.fs p })

/-- `shutil.rmtree`, recording the attempt in the ghost trace; an
injected fault raises after the attempt is recorded. -/
def fsRmtreeM (p : FPath) : M Unit := fun s =>
  let s1 := { s with world := { s.world with rmtreeCalls := s.world.rmtreeCalls ++ [p] } }
  if s1.env.rmtreeFails p then .err (.osError "rmtree failed") s1
  else .ok () { s1 with world := { s1.world with fs := fsRmtree s1.world.fs p } }

/-- `Path.unlink`. -/
def fsUnlinkM (p : FPath) : M Unit := fun s =>
  if s.env.unlinkFails p then .err (.osError "unlink failed") s
  else .ok () { s with world := { s.world with fs := fsRemoveEntry s.world.fs p } }

/-- `shutil.move` of a whole tree. -/
def fsRenameTree (fs : Fs) (src dst : FPath) : Fs :=
  fs.map (fun e => if underPath src e.1 then (dst ++ e.1.drop src.length, e.2) else e)

def fsRenameM (src dst : FPath) : M Unit :=
  modifyW (fun w => { w with fs := fsRenameTree w.fs src dst })

/-- `run_cmd(cmd, capture_output, check, dry_run)`: in dry-run mode
(while not executing) only a description is printed and a dummy
zero-status result returned; otherwise the command is spawned and a
non-zero status raises `CalledProcessError` when `check` is set. -/
def runCmd (cmd : String) (_capture_output : Bool := false) (check : Bool := true)
    (dry_run : Bool := true) : M CompletedProcess := fun s =>
  if dry_run && !s.st.executing then
    .ok { args := cmd, returncode := 0, stdout := "", stderr := "" }
      (addPrintS s ("Would run command: " ++ cmd))
  else
    let s1 := addSpawnS s cmd
    let r := s1.env.cmdResult cmd
    if check ∧ r.1 ≠ 0 then
      .err (.calledProcessError r.1 r.2.2) s1
    else
      .ok { args := cmd, returncode := r.1, stdout := r.2.1, stderr := r.2.2 } s1

/-- `mysql_exec(sql)`: one statement through the local client; dry-run
only prints; a non-zero client exit raises (subprocess `check=True`). -/
def mysql_exec (sql : String) (dry_run : Bool := true) : M Unit := fun s =>
  if dry_run && !s.st.executing then
    .ok () (addPrintS s ("Would run MySQL statement: " ++ sql))
  else
    let cmd := "sudo mysql -u root -e " ++ sql
    let s1 := addSpawnS s cmd
    let r := s1.env.cmdResult cmd
    if r.1 ≠ 0 then .err (.calledProcessError r.1 r.2.2) s1 else .ok () s1

/-- `atomic_write(path, data, mode, dry_run)`: write to a temporary
file named `.tmp.<name>.<timestamp>` in the same directory, create
missing parent directories, chmod the temporary file, then rename it
over the destination. -/
def atomic_write (p : FPath) (data : String) (mode : Nat := 420)
    (dry_run : Bool := true) : M Unit := do
  let s ← getS
  if dry_run && !s.st.executing then
    printM ("Would write file " ++ renderPath p ++ " (" ++ toString data.length ++ " bytes)")
  else
    let ts ← timestampM
    let tmp : FPath := p.dropLast ++ [".tmp." ++ lastName p ++ "." ++ ts]
    fsMkdirParentsM p.dropLast
    fsWriteFileM tmp data
    fsChmodM tmp mode
    fsReplaceM tmp p

/-- `backup_path`: move an existing path to `<name>.bak-<timestamp>`. -/
def backup_path (p : FPath) : M (Option FPath) := do
  let s ← getS
  if !(fsExists s.world.fs p) then pure none
  else
    let ts ← timestampM
    let bak : FPath := p.dropLast ++ [lastName p ++ ".bak-" ++ ts]
    fsRenameM p bak
    pure (some bak)

/-- `remove_path`: no-op when absent; dry-run prints; otherwise rmtree
a directory or unlink a file. -/
def remove_path (p : FPath) (dry_run : Bool := true) : M Unit := do
  let s ← getS
  if !(fsExists s.world.fs p) then pure ()
  else if dry_run && !s.st.executing then
    printM ("Would remove: " ++ renderPath p)
  else
    match fsLookup s.world.fs p with
    | some .dir => fsRmtreeM p
    | _ => fsUnlinkM p

/-- `detect_php_version`: read-only probes through the oracles; the
spec permits this interrogation in both modes. -/
def detect_php_version (_dry_run : Bool) (s : S) : String × S :=
  let s1 := addSpawnS s "php -r echo PHP_MAJOR_VERSION . PHP_MINOR_VERSION;"
  match s1.env.phpProbe with
  | some v => (v, s1)
  | none =>
    let s2 := addSpawnS s1 "apt-cache policy php-fpm"
    match s2.env.phpAptPolicy with
    | some v => (v, s2)
    | none =>
      let s3 := addSpawnS s2 "apt-cache search --names-only php-fpm"
      match s3.env.phpAptSearch with
      | some v => (v, s3)
      | none => ("8.1", addPrintS s3 "Falling back to PHP 8.1")

/-- `fetch_latest_wordpress_download_url`: version API with a
documented fallback; read-only, no world mutation. -/
def fetch_latest_wordpress_download_url : M (String × String) := fun s =>
  match s.env.wpApi with
  | some vu => .ok vu s
  | none =>
      .ok ("latest", "https://wordpress.org/latest.tar.gz")
        (addPrintS s "Falling back to wordpress.org/latest.tar.gz")

/-- Place extracted archive entries below `base`. -/
def fsAddEntries (fs : Fs) (base : FPath) (entries : List (FPath × FsNode)) : Fs :=
  entries.foldl (fun acc e => fsSet acc (base ++ e.1) e.2) fs

/-- `iterdir`: entries exactly one level below `d`. -/
def fsChildren (fs : Fs) (d : FPath) : List (String × FsNode) :=
  fs.filterMap (fun e =>
    if e.1.dropLast = d ∧ e.1 ≠ [] then some (lastName e.1, e.2) else none)

/-- `shutil.copytree`: copy the subtree at `src` to `dst`. -/
def copyTreeInto (fs : Fs) (src dst : FPath) : Fs :=
  fs.foldl (fun acc e =>
    if underPath src e.1 then fsSet acc (dst ++ e.1.drop src.length) e.2 else acc) fs

/-- The copy loop of `download_and_extract_wp`: for each child, copy a
directory tree (removing a pre-existing target tree) or copy a file. -/
def copyItemsInto (fs : Fs) (src dst : FPath) (items : List (String × FsNode)) : Fs :=
  items.foldl (fun acc it =>
    match it.2 with
    | .dir =>
        let target := dst ++ [it.1]
        let acc1 := if fsExists acc target then fsRmtree acc target else acc
        copyTreeInto acc1 (src ++ [it.1]) target
    | .file c m => fsSet acc (dst ++ [it.1]) (.file c m)) fs

/-- `download_and_extract_wp`: NOTE the temporary download directory is
created and recorded before the dry-run check, exactly as in the
source. -/
def download_and_extract_wp (download_url : String) (dest : FPath)
    (dry_run : Bool) (_keep_wp_content : Bool := false) : M Unit := do
  let tmpdir ← mkdtempM "wpdl_"
  modifySt (fun st => { st with tmp_dirs := st.tmp_dirs ++ [tmpdir] })
  let is_zip := strEndsWith download_url ".zip"
  let archive_ext := if is_zip then ".zip" else ".tar.gz"
  let archive_path : FPath := tmpdir ++ ["wp" ++ archive_ext]
  let s ← getS
  if dry_run && !s.st.executing then
    printM ("Would download WordPress from " ++ download_url ++ " to " ++
      renderPath archive_path)
  else if !(s.env.downloadOk download_url) then
    throwM (.runtimeError "Failed to download WordPress archive")
  else do
    let node := FsNode.file (s.env.archiveRaw download_url) defaultCreateMode
    modifyW (fun w => { w with fs := fsSet w.fs archive_path node })
    let extracted := tmpdir ++ ["extracted"]
    modifyW (fun w => { w with fs := fsSet w.fs extracted .dir })
    match s.env.archiveEntries download_url with
    | none => throwM (.runtimeError "Failed to extract WordPress archive")
    | some entries => do
        modifyW (fun w => { w with fs := fsAddEntries w.fs extracted entries })
        let s2 ← getS
        let wp_root :=
          match (fsChildren s2.world.fs extracted).find? (fun c =>
              match c.2 with
              | .dir => strStartsWith (strLower c.1) "wordpress"
              | _ => false) with
          | some c => extracted ++ [c.1]
          | none => extracted
        modifyW (fun w => { w with fs := fsMkdirParents w.fs dest })
        let s3 ← getS
        let items := fsChildren s3.world.fs wp_root
        modifyW (fun w => { w with fs := copyItemsInto w.fs wp_root dest items })

/-- The drop statement used both on overwrite and by the cleanup
(SQL quoting characters elided from the opaque statement text). -/
def dropDbSql (db user : String) : String :=
  "DROP DATABASE IF EXISTS " ++ db ++ "; DROP USER IF EXISTS " ++ user ++
    "@localhost; FLUSH PRIVILEGES;"

def createDbSql (db user passwd : String) : String :=
  "CREATE DATABASE IF NOT EXISTS " ++ db ++ "; CREATE USER IF NOT EXISTS " ++
    user ++ "@localhost IDENTIFIED BY " ++ passwd ++
    "; GRANT ALL PRIVILEGES ON " ++ db ++ ".* TO " ++ user ++
    "@localhost; FLUSH PRIVILEGES;"

/-- `show_plan`: the plan report (representative lines). -/
def show_plan (cfg : Cfg) : M Unit := do
  printM ("Mode: " ++ (if cfg.dry_run then "DRY-RUN (no changes)" else "EXECUTE"))
  printM ("Web root: " ++ renderPath cfg.web_root)
  printM ("Nginx config: " ++ renderPath cfg.nginx_conf)

def step_update_system (cfg : Cfg) : M Unit := do
  let _ ← runCmd "apt update && apt upgrade -y" false true cfg.dry_run
  pure ()

def step_install_nginx (cfg : Cfg) : M Unit := do
  let _ ← runCmd "apt install -y nginx" false true cfg.dry_run
  let _ ← runCmd "systemctl enable nginx" false true cfg.dry_run
  let _ ← runCmd "systemctl start nginx" false true cfg.dry_run
  pure ()

/-- `step_install_mysql` (the second, effective definition): install the
server; in dry-run only report; otherwise configure socket auth with an
unchecked direct spawn, then run the secure statements, re-raising a
client failure as a RuntimeError (SQL quoting characters elided). -/
def step_install_mysql (cfg : Cfg) : M Unit := do
  let _ ← runCmd "apt install -y mysql-server" false true cfg.dry_run
  if cfg.dry_run then
    printM "Would secure MySQL (ensure socket authentication for root and remove anonymous users / test db)"
  else do
    modifyW (fun w => { w with spawned := w.spawned ++
      ["sudo mysql -e ALTER USER root@localhost IDENTIFIED WITH auth_socket;"] })
    tryCatchM
      (do mysql_exec "DELETE FROM mysql.user WHERE User=anonymous;" cfg.dry_run
          mysql_exec "DELETE FROM mysql.user WHERE User=root AND Host NOT IN (localhost);" cfg.dry_run
          mysql_exec "DROP DATABASE IF EXISTS test;" cfg.dry_run
          mysql_exec "DELETE FROM mysql.db WHERE Db=test;" cfg.dry_run
          mysql_exec "FLUSH PRIVILEGES;" cfg.dry_run)
      (fun e => match e with
        | .calledProcessError _ _ => throwM (.runtimeError "MySQL secure commands failed")
        | e => throwM e)

def step_install_php (cfg : Cfg) : M Unit := do
  let _ ← runCmd "apt install -y php-fpm php-mysql php-curl php-gd php-mbstring php-xml php-xmlrpc php-soap php-intl php-zip" false true cfg.dry_run
  let php_ini : FPath := ["etc", "php", cfg.php_version, "fpm", "php.ini"]
  (if cfg.dry_run then
    printM ("Would edit " ++ renderPath php_ini ++ " to update upload_max_filesize/post_max_size/memory_limit/max_execution_time")
  else do
    let s ← getS
    match fsLookup s.world.fs php_ini with
    | some (.file content _) => do
        let content2 := s.env.phpIniTransform content
        atomic_write php_ini content2 420 cfg.dry_run
    | _ => printM (renderPath php_ini ++ " not found; skipping php.ini edits"))
  let _ ← runCmd ("systemctl restart php" ++ cfg.php_version ++ "-fpm") false true cfg.dry_run
  pure ()

def step_create_database (cfg : Cfg) : M Unit := do
  modifySt (fun st => { st with db_name := some cfg.db_name, db_user := some cfg.db_user })
  (if cfg.overwrite then
    mysql_exec (dropDbSql cfg.db_name cfg.db_user) cfg.dry_run
  else pure ())
  mysql_exec (createDbSql cfg.db_name cfg.db_user cfg.db_pass) cfg.dry_run
  modifySt (fun st => { st with created_db := true })

/-- The conflict gate of step 6 (source lines 600-607): a pre-existing
web root is removed under `--overwrite`, otherwise the step fails. -/
def wpOverwriteGate (cfg : Cfg) : M Unit := do
  let s ← getS
  if fsExists s.world.fs cfg.web_root then
    if cfg.overwrite then
      remove_path cfg.web_root cfg.dry_run
    else
      throwM (.runtimeError ("Web root " ++ renderPath cfg.web_root ++
        " already exists. Use --overwrite to replace."))
  else pure ()

/-- wp-config.php generation from the sample (source lines 620-652). -/
def wpConfigure (cfg : Cfg) : M Unit := do
  let s ← getS
  let wp_sample := cfg.web_root ++ ["wp-config-sample.php"]
  let wp_conf := cfg.web_root ++ ["wp-config.php"]
  match fsLookup s.world.fs wp_sample with
  | some (.file sample _) =>
      if cfg.dry_run && !s.st.executing then
        printM ("Would create wp-config.php from " ++ renderPath wp_sample)
      else do
        let conf := strReplace (strReplace (strReplace sample
          "database_name_here" cfg.db_name) "username_here" cfg.db_user)
          "password_here" cfg.db_pass
        let conf2 ←
          if s.env.saltsOk then pure (s.env.saltTransform conf)
          else do
            printM "Failed to fetch salts from WP API; leaving sample salts"
            pure conf
        atomic_write wp_conf conf2 420 cfg.dry_run
  | _ => pure ()

/-- The web-root creation of step 6 (source lines 609-615): dry-run
prints, perform creates the directory tree and records it. -/
def wpCreateRoot (cfg : Cfg) : M Unit := do
  let s ← getS
  if cfg.dry_run && !s.st.executing then
    printM ("Would create web root directory " ++ renderPath cfg.web_root)
  else do
    modifyW (fun w => { w with fs := fsMkdirParents w.fs cfg.web_root })
    modifySt (fun st => { st with created_paths := st.created_paths ++ [cfg.web_root] })

/-- The remainder of step 6 after the conflict gate: create the web
root, download and extract, generate wp-config, set permissions. -/
def wpInstall (cfg : Cfg) (download_url : String) : M Unit := do
  wpCreateRoot cfg
  download_and_extract_wp download_url cfg.web_root cfg.dry_run
  wpConfigure cfg
  let _ ← runCmd ("chown -R www-data:www-data " ++ renderPath cfg.web_root) false true cfg.dry_run
  let _ ← runCmd ("find " ++ renderPath cfg.web_root ++ " -type d -exec chmod 755 ;") false true cfg.dry_run
  let _ ← runCmd ("find " ++ renderPath cfg.web_root ++ " -type f -exec chmod 644 ;") false true cfg.dry_run
  pure ()

def step_download_and_install_wp (cfg : Cfg) : M Unit := do
  modifySt (fun st => { st with web_root := some cfg.web_root })
  let vu ← fetch_latest_wordpress_download_url
  wpOverwriteGate cfg
  wpInstall cfg vu.2

/-- The generated site configuration.  The literal template text is
outside the specified core; it is modeled as an opaque-content function
of the configuration fields the template mentions. -/
def nginx_conf_template (cfg : Cfg) : String :=
  "server: " ++ cfg.domain ++ " www." ++ cfg.domain ++ " root " ++
    renderPath cfg.web_root ++ " php" ++ cfg.php_version

/-- The conflict gate of step 7 (source lines 719-726): a pre-existing
site config is backed up under `--overwrite`, otherwise the step fails. -/
def nginxOverwriteGate (cfg : Cfg) : M Unit := do
  let s ← getS
  if fsExists s.world.fs cfg.nginx_conf then
    if cfg.overwrite then do
      let _ ← backup_path cfg.nginx_conf
      pure ()
    else
      throwM (.runtimeError ("Nginx config " ++ renderPath cfg.nginx_conf ++
        " exists. Use --overwrite to replace."))
  else pure ()

def step_configure_nginx (cfg : Cfg) : M Unit := do
  modifySt (fun st => { st with nginx_conf_path := some cfg.nginx_conf })
  let conf := nginx_conf_template cfg
  nginxOverwriteGate cfg
  atomic_write cfg.nginx_conf conf 420 cfg.dry_run
  let _ ← runCmd ("ln -sf " ++ renderPath cfg.nginx_conf ++ " /etc/nginx/sites-enabled/") false true cfg.dry_run
  let _ ← runCmd "rm -f /etc/nginx/sites-enabled/default" false true cfg.dry_run
  let _ ← runCmd "nginx -t" false true cfg.dry_run
  let _ ← runCmd "systemctl reload nginx" false true cfg.dry_run
  pure ()

def step_install_ssl (cfg : Cfg) : M Unit := do
  if !cfg.certbot then pure ()
  else do
    let _ ← runCmd "apt install -y certbot python3-certbot-nginx" false true cfg.dry_run
    if cfg.dry_run then
      printM "Would run certbot to obtain/renew certificates for domain"
    else do
      let _ ← runCmd ("certbot --nginx -d " ++ cfg.domain ++ " -d www." ++
        cfg.domain ++ " --non-interactive --agree-tos -m " ++ cfg.email ++
        " --redirect") false true false
      pure ()

def show_summary (cfg : Cfg) : M Unit := do
  if cfg.dry_run then printM "DRY-RUN complete. No changes were made."
  else printM "Installation steps finished (check for errors above)."

/-- Ghost: count an invocation of the cleanup routine. -/
def bumpCleanupM : M Unit :=
  modifyW (fun w => { w with cleanupCalls := w.cleanupCalls + 1 })

/-- Cleanup phase 1 (source lines 792-796): remove the web root
whenever it exists (the existence test, not a created-this-run test). -/
def cleanup_webroot (cfg : Cfg) : M Unit := do
  let s ← getS
  if fsExists s.world.fs cfg.web_root then
    remove_path cfg.web_root cfg.dry_run
  else pure ()

/-- Cleanup phase 2 (source lines 798-809): symlink then config file. -/
def cleanup_nginx (cfg : Cfg) : M Unit := do
  let symlink : FPath := ["etc", "nginx", "sites-enabled", lastName cfg.nginx_conf]
  let s ← getS
  (if fsExists s.world.fs symlink then remove_path symlink cfg.dry_run else pure ())
  let s2 ← getS
  if fsExists s2.world.fs cfg.nginx_conf then remove_path cfg.nginx_conf cfg.dry_run
  else pure ()

/-- Cleanup phase 3 (source lines 811-819): drop DB and user when
created this run or overwrite was requested; failures only logged. -/
def cleanup_db (cfg : Cfg) : M Unit := do
  let s ← getS
  if cfg.overwrite || s.st.created_db then
    tryCatchM (mysql_exec (dropDbSql cfg.db_name cfg.db_user) cfg.dry_run)
      (fun _ => printM "Failed to drop DB/user during cleanup")
  else pure ()

/-- Cleanup phase 4 loop (source lines 821-830): each temp-dir removal
individually protected. -/
def cleanup_tmpdirs_loop (cfg : Cfg) : List FPath → M Unit
  | [] => pure ()
  | td :: rest => do
      tryCatchM
        (do let s ← getS
            if fsExists s.world.fs td then remove_path td cfg.dry_run else pure ())
        (fun _ => printM "Failed to remove temp dir")
      cleanup_tmpdirs_loop cfg rest

def cleanup_tmpdirs (cfg : Cfg) : M Unit := do
  let s ← getS
  cleanup_tmpdirs_loop cfg s.st.tmp_dirs

/-- Body of `cleanup_full` after the ghost count: phases 1 and 2 are
not exception-protected; phases 3 and 4 are.  Called with the empty
dict (no last_cfg) the first configuration access raises KeyError,
after the banner. -/
def cleanup_rest (cfg? : Option Cfg) : M Unit := do
  printM "Running full cleanup (Option A)..."
  match cfg? with
  | none => throwM (.keyError "web_root")
  | some cfg => do
      cleanup_webroot cfg
      cleanup_nginx cfg
      cleanup_db cfg
      cleanup_tmpdirs cfg
      printM "Cleanup complete"

def cleanup_full (cfg? : Option Cfg) : M Unit := do
  bumpCleanupM
  cleanup_rest cfg?

/-- Run a computation absorbing any exception (a bare `except` that
only logs); returns the state reached. -/
def runAbsorb (m : M Unit) (logMsg : String) (s : S) : S :=
  match m s with
  | .ok _ s' => s'
  | .err _ s' => addPrintS s' logMsg

/-- `signal_handler`: log, run the full cleanup against the last-known
configuration (the empty dict if none) and the live state, absorb any
cleanup exception, exit 1. -/
def signal_handler (sig : Nat) (s : S) : Nat × S :=
  let s1 := addPrintS s ("Received signal " ++ toString sig ++ ". Attempting cleanup...")
  let s2 := runAbsorb (cleanup_full s1.st.last_cfg)
    "Cleanup failed during signal handling" s1
  (1, s2)

/-- One iteration of the `finally` block of `main`: in dry-run only a
report; otherwise an rmtree attempt whose failure is absorbed. -/
def attemptTmpRemove (cfg : Cfg) (td : FPath) (s : S) : S :=
  if fsExists s.world.fs td then
    if cfg.dry_run then
      addPrintS s ("Would remove temporary dir " ++ renderPath td)
    else
      let s1 := { s with world := { s.world with rmtreeCalls := s.world.rmtreeCalls ++ [td] } }
      if s1.env.rmtreeFails td then
        addPrintS s1 "Failed to remove temp dir in finally"
      else
        { s1 with world := { s1.world with fs := fsRmtree s1.world.fs td } }
  else s

def finally_tmp_loop (cfg : Cfg) : List FPath → S → S
  | [], s => s
  | td :: rest, s => finally_tmp_loop cfg rest (attemptTmpRemove cfg td s)

/-- The `finally` block of `main` (source lines 953-966). -/
def finallyTmp (cfg : Cfg) (s : S) : S := finally_tmp_loop cfg s.st.tmp_dirs s

/-- The declared step order of the pipeline. -/
def stepsList (cfg : Cfg) : List (M Unit) :=
  [ step_update_system cfg, step_install_nginx cfg, step_install_mysql cfg,
    step_install_php cfg, step_create_database cfg,
    step_download_and_install_wp cfg, step_configure_nginx cfg,
    step_install_ssl cfg ]

def seqAll : List (M Unit) → M Unit
  | [] => pure ()
  | m :: rest => do m; seqAll rest

def runSteps (cfg : Cfg) : M Unit := seqAll (stepsList cfg)

/-- The try/except/finally of `main` (source lines 931-966): run the
steps and the summary; on any exception run the full cleanup (its own
errors only logged) and exit 1; the temp-dir phase always runs. -/
def pipelineAndCleanup (cfg : Cfg) : S → Nat × S := fun s =>
  match (do runSteps cfg; show_summary cfg : M Unit) s with
  | .ok _ s1 => (0, finallyTmp cfg s1)
  | .err _ s1 =>
      let s2 := runAbsorb (cleanup_full (some cfg)) "Cleanup encountered errors" s1
      (1, finallyTmp cfg s2)

/-- Parsed command-line arguments (defaults already applied by
argparse, except the tri-state mode flag). -/
structure Args where
  domain : String
  email : Option String
  db_name : String
  db_user : String
  db_pass : String
  certbot : Bool
  dry_run : Option Bool
  overwrite : Bool

/-- The body of `main` from argument parsing onward: build the configuration,
stash it for the signal handler, show the plan, confirm in execute
mode, check root, freeze the mode, then run the pipeline.  Returns the
process exit code with the final state. -/
def mainRun (args : Args) (s : S) : Nat × S :=
  let dryRun := args.dry_run.getD true
  let pv := detect_php_version dryRun s
  let cfg : Cfg :=
    { domain := args.domain,
      email := args.email.getD ("admin@" ++ args.domain),
      db_name := args.db_name, db_user := args.db_user,
      db_pass := args.db_pass, certbot := args.certbot,
      dry_run := dryRun, overwrite := args.overwrite,
      php_version := pv.1,
      web_root := ["var", "www", args.domain],
      nginx_conf := ["etc", "nginx", "sites-available", args.domain] }
  let s2 := { pv.2 with st := { pv.2.st with last_cfg := some cfg, overwrite := cfg.overwrite } }
  let s3 := Res.state (show_plan cfg s2)
  if dryRun = false ∧ strLower (strTrim s3.env.userConfirm) ≠ "y" then
    (0, addPrintS s3 "Installation cancelled by user.")
  else if dryRun = false ∧ s3.env.euid ≠ 0 then
    (1, addPrintS s3 "This script must be run as root (use sudo). Exiting.")
  else
    let s4 := { s3 with st := { s3.st with executing := !dryRun } }
    pipelineAndCleanup cfg s4

/-- Layout of the WordPress archive used in concrete scenarios. -/
def wpArchiveLayout : List (FPath × FsNode) :=
  [ (["wordpress"], .dir),
    (["wordpress", "index.php"], .file "php-index" 420),
    (["wordpress", "wp-config-sample.php"],
      .file "cfg database_name_here username_here password_here" 420) ]

/-- An environment in which every external operation succeeds. -/
def envOk : Env :=
  { cmdResult := fun _ => (0, "", ""),
    euid := 0, userConfirm := "y",
    phpProbe := some "8.1", phpAptPolicy := none, phpAptSearch := none,
    wpApi := some ("6.0", "https://wordpress.org/wordpress-6.0.tar.gz"),
    downloadOk := fun _ => true,
    archiveRaw := fun _ => "ARCHIVE-BYTES",
    archiveEntries := fun _ => some wpArchiveLayout,
    saltsOk := true, saltTransform := fun c => "SALTS " ++ c,
    phpIniTransform := id,
    writeFails := fun _ => false, partialData := fun d => strTake d 3,
    chmodFails := fun _ => false, rmtreeFails := fun _ => false,
    unlinkFails := fun _ => false }

def initWorld (fs : Fs) : World :=
  { fs := fs, spawned := [], printed := [], rmtreeCalls := [],
    cleanupCalls := 0, tmpCounter := 0, clock := 0 }

def initS (env : Env) (fs : Fs) : S :=
  { env := env, world := initWorld fs, st := initRunState }

/-- Baseline command line: `--domain example.com --db-pass pw --execute`. -/
def argsExec : Args :=
  { domain := "example.com", email := none, db_name := "wordpress",
    db_user := "wpuser", db_pass := "pw", certbot := false,
    dry_run := some false, overwrite := false }

/-- Baseline dry-run command line. -/
def argsDry : Args := { argsExec with dry_run := some true }

/-- The download URL served by `envOk`. -/
def wpUrl : String := "https://wordpress.org/wordpress-6.0.tar.gz"

/-- The configuration `mainRun argsExec` resolves. -/
def cfgExec : Cfg :=
  { domain := "example.com", email := "admin@example.com",
    db_name := "wordpress", db_user := "wpuser", db_pass := "pw",
    certbot := false, dry_run := false, overwrite := false,
    php_version := "8.1",
    web_root := ["var", "www", "example.com"],
    nginx_conf := ["etc", "nginx", "sites-available", "example.com"] }

def cfgDry : Cfg := { cfgExec with dry_run := true }

def webRootB : FPath := ["var", "www", "example.com"]

/-- Scenario B fixtures: pre-existing web root on disk. -/
def fsPre : Fs :=
  [ (["var", "www", "example.com"], .dir),
    (["var", "www", "example.com", "old.html"], .file "old" 420) ]

def sScenB : S := initS envOk fsPre

/-- Environment where the WordPress download fails. -/
def envDlFail : Env := { envOk with downloadOk := fun _ => false }

def sDlFail : S := initS envDlFail []

/-- Dry-run context state (mode not yet frozen to executing). -/
def sSim : S := initS envOk []

/-- The cleanup-invocation count of a state. -/
def ccOf (s : S) : Nat := s.world.cleanupCalls

/-- Computations that never touch the cleanup-invocation ghost. -/
def PreservesCC (m : M α) : Prop :=
  ∀ s, ccOf (Res.state (m s)) = ccOf s

/-! ## Totality: computations that never raise -/

def TotalM (m : M α) : Prop := ∀ s, ∃ a s', m s = .ok a s'

/-- Environment whose commands all fail with exit status 7. -/
def envFail7 : Env := { envOk with cmdResult := fun _ => (7, "", "boom") }

def sFail7 : S := initS envFail7 []

/-- Download-failure run state: perform mode already frozen. -/
def sExecDF : S := { sDlFail with st := { sDlFail.st with executing := true } }

/-- A mid-run state owning one recorded, existing temp directory. -/
def sTmp : S :=
  { initS envOk [(["tmp", "wpdl_0"], .dir)] with
    st := { initRunState with tmp_dirs := [["tmp", "wpdl_0"]], executing := true } }

/-! ## C7: cleanup independence -/

/-- Environment where removing the web-root tree raises an OS error. -/
def envRmFail : Env := { envOk with rmtreeFails := fun p => decide (p = webRootB) }

/-- Web root and one recorded temp dir on disk. -/
def fsCleanup : Fs :=
  [ (["var", "www", "example.com"], .dir), (["tmp", "wpdl_0"], .dir) ]

/-- Run state mid-run: database created, one temp dir recorded. -/
def stMidRun : RunState :=
  { initRunState with
      created_db := true
      tmp_dirs := [["tmp", "wpdl_0"]]
      executing := true }

/-- Cleanup input: web root and one recorded temp dir on disk, database
created this run, perform mode. -/
def sCleanupFail : S := { initS envRmFail fsCleanup with st := stMidRun }

/-- Environment where exactly the cleanup drop statement fails. -/
def envDropFail : Env :=
  { envOk with cmdResult := fun c =>
      if c = "sudo mysql -u root -e " ++ dropDbSql "wordpress" "wpuser" then
        (1, "", "denied")
      else (0, "", "") }

def sDropFail : S :=
  { initS envDropFail [(["tmp", "wpdl_0"], .dir)] with st := stMidRun }

/-- Command line with `--overwrite`. -/
def argsOver : Args := { argsExec with overwrite := true }

def cfgOver : Cfg := { cfgExec with overwrite := true }

/-- Scenario B state with perform mode frozen. -/
def sScenBExec : S := { sScenB with st := { sScenB.st with executing := true } }

/-! ## Atomic write: general lemmas -/

/-- The temporary path `atomic_write` derives for destination `p` at
timestamp counter `c`. -/
def awTmp (p : FPath) (c : Nat) : FPath :=
  p.dropLast ++ [".tmp." ++ lastName p ++ "." ++ clockString c]

/-- Destination used by the concrete atomic-write scenarios. -/
def awDest : FPath := ["etc", "app", "conf"]

/-- All-good atomic-write input: perform mode, destination holding the
previous content. -/
def sAw : S :=
  { initS envOk [(awDest, .file "OLD" 420)] with
    st := { initRunState with executing := true } }

/-- Environment where the chmod on the derived temporary path fails. -/
def envChmodFail : Env :=
  { envOk with chmodFails := fun q => decide (q = awTmp awDest 0) }

def sChmodFail : S :=
  { initS envChmodFail [(awDest, .file "OLD" 420)] with
    st := { initRunState with executing := true } }

/-! ## Theorems -/

theorem M.bind_apply (m : M α) (f : α → M β) (s : S) :
    (m >>= f) s = match m s with
      | .ok a s' => f a s'
      | .err e s' => .err e s' := rfl

theorem M.pure_apply (a : α) (s : S) : (pure a : M α) s = .ok a s := rfl

/-! ## General lemmas about the monad -/

theorem tryCatchM_apply (m : M α) (h : Err → M α) (s : S) :
    tryCatchM m h s = match m s with
      | .ok a s' => .ok a s'
      | .err e s' => h e s' := rfl

theorem preservesCC_bind {m : M α} {f : α → M β}
    (hm : PreservesCC m) (hf : ∀ a, PreservesCC (f a)) :
    PreservesCC (m >>= f) := by
  intro s
  show ccOf (Res.state (M.bind m f s)) = ccOf s
  unfold M.bind
  cases h : m s with
  | ok a s' =>
      have h1 := hm s
      rw [h] at h1
      exact (hf a s').trans h1
  | err e s' =>
      have h1 := hm s
      rw [h] at h1
      exact h1

theorem preservesCC_pure (a : α) : PreservesCC (pure a : M α) := fun _ => rfl

theorem preservesCC_throw (e : Err) : PreservesCC (throwM e : M α) := fun _ => rfl

theorem preservesCC_getS : PreservesCC getS := fun _ => rfl

theorem preservesCC_printM (msg : String) : PreservesCC (printM msg) := fun _ => rfl

theorem preservesCC_modifyW {f : World → World}
    (hf : ∀ w, (f w).cleanupCalls = w.cleanupCalls) :
    PreservesCC (modifyW f) := fun s => hf s.world

theorem preservesCC_modifySt (f : RunState → RunState) :
    PreservesCC (modifySt f) := fun _ => rfl

theorem preservesCC_ite (c : Prop) [Decidable c] {m1 m2 : M α}
    (h1 : PreservesCC m1) (h2 : PreservesCC m2) :
    PreservesCC (if c then m1 else m2) := by
  by_cases hc : c
  · simpa [hc] using h1
  · simpa [hc] using h2

theorem preservesCC_tryCatch {m : M α} {h : Err → M α}
    (hm : PreservesCC m) (hh : ∀ e, PreservesCC (h e)) :
    PreservesCC (tryCatchM m h) := by
  intro s
  unfold tryCatchM
  cases hms : m s with
  | ok a s' =>
      have h1 := hm s; rw [hms] at h1; exact h1
  | err e s' =>
      have h1 := hm s; rw [hms] at h1
      exact (hh e s').trans h1

theorem preservesCC_timestampM : PreservesCC timestampM := fun _ => rfl

theorem preservesCC_mkdtempM (pre : String) : PreservesCC (mkdtempM pre) :=
  fun _ => rfl

theorem preservesCC_fsWriteFileM (p : FPath) (d : String) :
    PreservesCC (fsWriteFileM p d) := by
  intro s; unfold fsWriteFileM; split <;> rfl

theorem preservesCC_fsChmodM (p : FPath) (m : Nat) :
    PreservesCC (fsChmodM p m) := by
  intro s; unfold fsChmodM
  split
  · rfl
  · split <;> rfl

theorem preservesCC_fsReplaceM (p q : FPath) :
    PreservesCC (fsReplaceM p q) := by
  intro s; unfold fsReplaceM; split <;> rfl

theorem preservesCC_fsMkdirParentsM (p : FPath) :
    PreservesCC (fsMkdirParentsM p) :=
  preservesCC_modifyW (fun _ => rfl)

theorem preservesCC_fsRmtreeM (p : FPath) : PreservesCC (fsRmtreeM p) := by
  intro s; unfold fsRmtreeM; dsimp only; split <;> rfl

theorem preservesCC_fsUnlinkM (p : FPath) : PreservesCC (fsUnlinkM p) := by
  intro s; unfold fsUnlinkM; split <;> rfl

theorem preservesCC_fsRenameM (p q : FPath) : PreservesCC (fsRenameM p q) :=
  preservesCC_modifyW (fun _ => rfl)

theorem preservesCC_runCmd (cmd : String) (a b c : Bool) :
    PreservesCC (runCmd cmd a b c) := by
  intro s; unfold runCmd
  split
  · rfl
  · dsimp only; split <;> rfl

theorem preservesCC_mysql_exec (sql : String) (d : Bool) :
    PreservesCC (mysql_exec sql d) := by
  intro s; unfold mysql_exec
  split
  · rfl
  · dsimp only; split <;> rfl

theorem preservesCC_atomic_write (p : FPath) (d : String) (m : Nat) (dr : Bool) :
    PreservesCC (atomic_write p d m dr) := by
  unfold atomic_write
  apply preservesCC_bind preservesCC_getS
  intro s
  apply preservesCC_ite
  · exact preservesCC_printM _
  · apply preservesCC_bind preservesCC_timestampM
    intro ts
    dsimp only
    apply preservesCC_bind (preservesCC_fsMkdirParentsM _)
    intro _
    apply preservesCC_bind (preservesCC_fsWriteFileM _ _)
    intro _
    apply preservesCC_bind (preservesCC_fsChmodM _ _)
    intro _
    exact preservesCC_fsReplaceM _ _

theorem preservesCC_backup_path (p : FPath) : PreservesCC (backup_path p) := by
  unfold backup_path
  apply preservesCC_bind preservesCC_getS
  intro s
  apply preservesCC_ite
  · exact preservesCC_pure _
  · apply preservesCC_bind preservesCC_timestampM
    intro ts
    dsimp only
    apply preservesCC_bind (preservesCC_fsRenameM _ _)
    intro _
    exact preservesCC_pure _

theorem preservesCC_remove_path (p : FPath) (dr : Bool) :
    PreservesCC (remove_path p dr) := by
  unfold remove_path
  apply preservesCC_bind preservesCC_getS
  intro s
  apply preservesCC_ite
  · exact preservesCC_pure _
  · apply preservesCC_ite
    · exact preservesCC_printM _
    · cases fsLookup s.world.fs p with
      | none => exact preservesCC_fsUnlinkM _
      | some n =>
          cases n with
          | dir => exact preservesCC_fsRmtreeM _
          | file c m => exact preservesCC_fsUnlinkM _

theorem preservesCC_fetch : PreservesCC fetch_latest_wordpress_download_url := by
  intro s
  unfold fetch_latest_wordpress_download_url
  cases s.env.wpApi <;> rfl

theorem preservesCC_download_and_extract_wp (u : String) (dest : FPath)
    (dr kp : Bool) : PreservesCC (download_and_extract_wp u dest dr kp) := by
  unfold download_and_extract_wp
  apply preservesCC_bind (preservesCC_mkdtempM _)
  intro tmpdir
  apply preservesCC_bind (preservesCC_modifySt _)
  intro _
  dsimp only
  apply preservesCC_bind preservesCC_getS
  intro s
  apply preservesCC_ite
  · exact preservesCC_printM _
  · apply preservesCC_ite
    · exact preservesCC_throw _
    · dsimp only
      refine preservesCC_bind (preservesCC_modifyW ?_) ?_
      · intro w; rfl
      intro _
      refine preservesCC_bind (preservesCC_modifyW ?_) ?_
      · intro w; rfl
      intro _
      cases s.env.archiveEntries u with
      | none => exact preservesCC_throw _
      | some entries =>
          refine preservesCC_bind (preservesCC_modifyW ?_) ?_
          · intro w; rfl
          intro _
          apply preservesCC_bind preservesCC_getS
          intro s2
          dsimp only
          refine preservesCC_bind (preservesCC_modifyW ?_) ?_
          · intro w; rfl
          intro _
          apply preservesCC_bind preservesCC_getS
          intro s3
          dsimp only
          exact preservesCC_modifyW (fun _ => rfl)

theorem preservesCC_show_plan (cfg : Cfg) : PreservesCC (show_plan cfg) := by
  unfold show_plan
  apply preservesCC_bind (preservesCC_printM _)
  intro _
  apply preservesCC_bind (preservesCC_printM _)
  intro _
  exact preservesCC_printM _

theorem preservesCC_show_summary (cfg : Cfg) : PreservesCC (show_summary cfg) := by
  unfold show_summary
  apply preservesCC_ite
  · exact preservesCC_printM _
  · exact preservesCC_printM _

theorem preservesCC_step1 (cfg : Cfg) : PreservesCC (step_update_system cfg) := by
  unfold step_update_system
  apply preservesCC_bind (preservesCC_runCmd _ _ _ _)
  intro _
  exact preservesCC_pure _

theorem preservesCC_step2 (cfg : Cfg) : PreservesCC (step_install_nginx cfg) := by
  unfold step_install_nginx
  apply preservesCC_bind (preservesCC_runCmd _ _ _ _)
  intro _
  apply preservesCC_bind (preservesCC_runCmd _ _ _ _)
  intro _
  apply preservesCC_bind (preservesCC_runCmd _ _ _ _)
  intro _
  exact preservesCC_pure _

theorem preservesCC_step3 (cfg : Cfg) : PreservesCC (step_install_mysql cfg) := by
  unfold step_install_mysql
  apply preservesCC_bind (preservesCC_runCmd _ _ _ _)
  intro _
  apply preservesCC_ite
  · exact preservesCC_printM _
  · refine preservesCC_bind (preservesCC_modifyW ?_) ?_
    · intro w; rfl
    intro _
    apply preservesCC_tryCatch
    · apply preservesCC_bind (preservesCC_mysql_exec _ _)
      intro _
      apply preservesCC_bind (preservesCC_mysql_exec _ _)
      intro _
      apply preservesCC_bind (preservesCC_mysql_exec _ _)
      intro _
      apply preservesCC_bind (preservesCC_mysql_exec _ _)
      intro _
      exact preservesCC_mysql_exec _ _
    · intro e
      cases e <;> exact preservesCC_throw _

theorem preservesCC_step4 (cfg : Cfg) : PreservesCC (step_install_php cfg) := by
  unfold step_install_php
  apply preservesCC_bind (preservesCC_runCmd _ _ _ _)
  intro _
  dsimp only
  apply preservesCC_bind
  · apply preservesCC_ite
    · exact preservesCC_printM _
    · apply preservesCC_bind preservesCC_getS
      intro s
      cases h : fsLookup s.world.fs ["etc", "php", cfg.php_version, "fpm", "php.ini"] with
      | none => exact preservesCC_printM _
      | some n =>
          cases n with
          | dir => exact preservesCC_printM _
          | file c m =>
              dsimp only
              exact preservesCC_atomic_write _ _ _ _
  · intro _
    apply preservesCC_bind (preservesCC_runCmd _ _ _ _)
    intro _
    exact preservesCC_pure _

theorem preservesCC_step5 (cfg : Cfg) : PreservesCC (step_create_database cfg) := by
  unfold step_create_database
  apply preservesCC_bind (preservesCC_modifySt _)
  intro _
  apply preservesCC_bind
  · apply preservesCC_ite
    · exact preservesCC_mysql_exec _ _
    · exact preservesCC_pure _
  · intro _
    apply preservesCC_bind (preservesCC_mysql_exec _ _)
    intro _
    exact preservesCC_modifySt _

theorem preservesCC_wpOverwriteGate (cfg : Cfg) :
    PreservesCC (wpOverwriteGate cfg) := by
  unfold wpOverwriteGate
  apply preservesCC_bind preservesCC_getS
  intro s
  apply preservesCC_ite
  · apply preservesCC_ite
    · exact preservesCC_remove_path _ _
    · exact preservesCC_throw _
  · exact preservesCC_pure _

theorem preservesCC_wpConfigure (cfg : Cfg) : PreservesCC (wpConfigure cfg) := by
  unfold wpConfigure
  apply preservesCC_bind preservesCC_getS
  intro s
  dsimp only
  cases h : fsLookup s.world.fs (cfg.web_root ++ ["wp-config-sample.php"]) with
  | none => exact preservesCC_pure _
  | some n =>
      cases n with
      | dir => exact preservesCC_pure _
      | file c m =>
          apply preservesCC_ite
          · exact preservesCC_printM _
          · dsimp only
            apply preservesCC_ite
            · apply preservesCC_bind (preservesCC_pure _)
              intro y
              exact preservesCC_atomic_write _ _ _ _
            · apply preservesCC_bind (preservesCC_printM _)
              intro _
              apply preservesCC_bind (preservesCC_pure _)
              intro y
              exact preservesCC_atomic_write _ _ _ _

theorem preservesCC_wpCreateRoot (cfg : Cfg) : PreservesCC (wpCreateRoot cfg) := by
  unfold wpCreateRoot
  apply preservesCC_bind preservesCC_getS
  intro s
  apply preservesCC_ite
  · exact preservesCC_printM _
  · refine preservesCC_bind (preservesCC_modifyW ?_) ?_
    · intro w; rfl
    intro _
    exact preservesCC_modifySt _

theorem preservesCC_wpInstall (cfg : Cfg) (u : String) :
    PreservesCC (wpInstall cfg u) := by
  unfold wpInstall
  apply preservesCC_bind (preservesCC_wpCreateRoot _)
  · intro _
    apply preservesCC_bind (preservesCC_download_and_extract_wp _ _ _ _)
    intro _
    apply preservesCC_bind (preservesCC_wpConfigure _)
    intro _
    apply preservesCC_bind (preservesCC_runCmd _ _ _ _)
    intro _
    apply preservesCC_bind (preservesCC_runCmd _ _ _ _)
    intro _
    apply preservesCC_bind (preservesCC_runCmd _ _ _ _)
    intro _
    exact preservesCC_pure _

theorem preservesCC_step6 (cfg : Cfg) :
    PreservesCC (step_download_and_install_wp cfg) := by
  unfold step_download_and_install_wp
  apply preservesCC_bind (preservesCC_modifySt _)
  intro _
  apply preservesCC_bind preservesCC_fetch
  intro vu
  apply preservesCC_bind (preservesCC_wpOverwriteGate _)
  intro _
  exact preservesCC_wpInstall _ _

theorem preservesCC_nginxOverwriteGate (cfg : Cfg) :
    PreservesCC (nginxOverwriteGate cfg) := by
  unfold nginxOverwriteGate
  apply preservesCC_bind preservesCC_getS
  intro s
  apply preservesCC_ite
  · apply preservesCC_ite
    · apply preservesCC_bind (preservesCC_backup_path _)
      intro _
      exact preservesCC_pure _
    · exact preservesCC_throw _
  · exact preservesCC_pure _

theorem preservesCC_step7 (cfg : Cfg) : PreservesCC (step_configure_nginx cfg) := by
  unfold step_configure_nginx
  apply preservesCC_bind (preservesCC_modifySt _)
  intro _
  dsimp only
  apply preservesCC_bind (preservesCC_nginxOverwriteGate _)
  intro _
  apply preservesCC_bind (preservesCC_atomic_write _ _ _ _)
  intro _
  apply preservesCC_bind (preservesCC_runCmd _ _ _ _)
  intro _
  apply preservesCC_bind (preservesCC_runCmd _ _ _ _)
  intro _
  apply preservesCC_bind (preservesCC_runCmd _ _ _ _)
  intro _
  apply preservesCC_bind (preservesCC_runCmd _ _ _ _)
  intro _
  exact preservesCC_pure _

theorem preservesCC_step8 (cfg : Cfg) : PreservesCC (step_install_ssl cfg) := by
  unfold step_install_ssl
  apply preservesCC_ite
  · exact preservesCC_pure _
  · apply preservesCC_bind (preservesCC_runCmd _ _ _ _)
    intro _
    apply preservesCC_ite
    · exact preservesCC_printM _
    · apply preservesCC_bind (preservesCC_runCmd _ _ _ _)
      intro _
      exact preservesCC_pure _

theorem preservesCC_seqAll (l : List (M Unit))
    (h : ∀ m ∈ l, PreservesCC m) : PreservesCC (seqAll l) := by
  induction l with
  | nil => exact preservesCC_pure _
  | cons m rest ih =>
      unfold seqAll
      apply preservesCC_bind (h m (List.mem_cons_self m rest))
      intro _
      exact ih (fun x hx => h x (List.mem_cons_of_mem m hx))

theorem preservesCC_memStep (cfg : Cfg) :
    ∀ m ∈ stepsList cfg, PreservesCC m := by
  intro m hm
  unfold stepsList at hm
  simp only [List.mem_cons, List.not_mem_nil, or_false] at hm
  rcases hm with h | h | h | h | h | h | h | h <;> subst h
  · exact preservesCC_step1 cfg
  · exact preservesCC_step2 cfg
  · exact preservesCC_step3 cfg
  · exact preservesCC_step4 cfg
  · exact preservesCC_step5 cfg
  · exact preservesCC_step6 cfg
  · exact preservesCC_step7 cfg
  · exact preservesCC_step8 cfg

theorem preservesCC_runSteps (cfg : Cfg) : PreservesCC (runSteps cfg) :=
  preservesCC_seqAll _ (preservesCC_memStep cfg)

theorem preservesCC_cleanup_webroot (cfg : Cfg) :
    PreservesCC (cleanup_webroot cfg) := by
  unfold cleanup_webroot
  apply preservesCC_bind preservesCC_getS
  intro s
  apply preservesCC_ite
  · exact preservesCC_remove_path _ _
  · exact preservesCC_pure _

theorem preservesCC_cleanup_nginx (cfg : Cfg) :
    PreservesCC (cleanup_nginx cfg) := by
  unfold cleanup_nginx
  apply preservesCC_bind preservesCC_getS
  intro s
  apply preservesCC_bind
  · apply preservesCC_ite
    · exact preservesCC_remove_path _ _
    · exact preservesCC_pure _
  · intro _
    apply preservesCC_bind preservesCC_getS
    intro s2
    apply preservesCC_ite
    · exact preservesCC_remove_path _ _
    · exact preservesCC_pure _

theorem preservesCC_cleanup_db (cfg : Cfg) : PreservesCC (cleanup_db cfg) := by
  unfold cleanup_db
  apply preservesCC_bind preservesCC_getS
  intro s
  apply preservesCC_ite
  · apply preservesCC_tryCatch
    · exact preservesCC_mysql_exec _ _
    · intro e
      exact preservesCC_printM _
  · exact preservesCC_pure _

theorem preservesCC_cleanup_tmpdirs_loop (cfg : Cfg) (l : List FPath) :
    PreservesCC (cleanup_tmpdirs_loop cfg l) := by
  induction l with
  | nil => exact preservesCC_pure _
  | cons td rest ih =>
      unfold cleanup_tmpdirs_loop
      apply preservesCC_bind
      · apply preservesCC_tryCatch
        · apply preservesCC_bind preservesCC_getS
          intro s
          apply preservesCC_ite
          · exact preservesCC_remove_path _ _
          · exact preservesCC_pure _
        · intro e
          exact preservesCC_printM _
      · intro _
        exact ih

theorem preservesCC_cleanup_tmpdirs (cfg : Cfg) :
    PreservesCC (cleanup_tmpdirs cfg) := by
  unfold cleanup_tmpdirs
  apply preservesCC_bind preservesCC_getS
  intro s
  exact preservesCC_cleanup_tmpdirs_loop _ _

theorem preservesCC_cleanup_rest (c : Option Cfg) :
    PreservesCC (cleanup_rest c) := by
  unfold cleanup_rest
  apply preservesCC_bind (preservesCC_printM _)
  intro _
  cases c with
  | none => exact preservesCC_throw _
  | some cfg =>
      apply preservesCC_bind (preservesCC_cleanup_webroot _)
      intro _
      apply preservesCC_bind (preservesCC_cleanup_nginx _)
      intro _
      apply preservesCC_bind (preservesCC_cleanup_db _)
      intro _
      apply preservesCC_bind (preservesCC_cleanup_tmpdirs _)
      intro _
      exact preservesCC_printM _

/-- Each entry into the cleanup routine increments the ghost counter by
exactly one, whether or not the cleanup itself raises. -/
theorem ccOf_cleanup_full (c : Option Cfg) (s : S) :
    ccOf (Res.state (cleanup_full c s)) = ccOf s + 1 := by
  show ccOf (Res.state (M.bind bumpCleanupM (fun _ => cleanup_rest c) s)) = ccOf s + 1
  unfold M.bind bumpCleanupM modifyW
  exact (preservesCC_cleanup_rest c _).trans rfl

theorem ccOf_runAbsorb_cleanup (c : Option Cfg) (msg : String) (s : S) :
    ccOf (runAbsorb (cleanup_full c) msg s) = ccOf s + 1 := by
  unfold runAbsorb
  have h1 := ccOf_cleanup_full c s
  cases h : cleanup_full c s with
  | ok a s' =>
      rw [h] at h1
      exact h1
  | err e s' =>
      rw [h] at h1
      exact h1

theorem ccOf_attemptTmpRemove (cfg : Cfg) (td : FPath) (s : S) :
    ccOf (attemptTmpRemove cfg td s) = ccOf s := by
  unfold attemptTmpRemove
  dsimp only
  split
  · split
    · rfl
    · split <;> rfl
  · rfl

theorem ccOf_finally_tmp_loop (cfg : Cfg) (l : List FPath) :
    ∀ s, ccOf (finally_tmp_loop cfg l s) = ccOf s := by
  induction l with
  | nil => intro s; rfl
  | cons td rest ih =>
      intro s
      unfold finally_tmp_loop
      exact (ih _).trans (ccOf_attemptTmpRemove cfg td s)

theorem ccOf_finallyTmp (cfg : Cfg) (s : S) :
    ccOf (finallyTmp cfg s) = ccOf s :=
  ccOf_finally_tmp_loop cfg s.st.tmp_dirs s

theorem totalM_bind {m : M α} {f : α → M β} (hm : TotalM m)
    (hf : ∀ a, TotalM (f a)) : TotalM (m >>= f) := by
  intro s
  obtain ⟨a, s1, h1⟩ := hm s
  obtain ⟨b, s2, h2⟩ := hf a s1
  refine ⟨b, s2, ?_⟩
  show M.bind m f s = _
  unfold M.bind
  rw [h1]
  exact h2

theorem totalM_pure (a : α) : TotalM (pure a : M α) := fun s => ⟨a, s, rfl⟩

theorem totalM_getS : TotalM getS := fun s => ⟨s, s, rfl⟩

theorem totalM_printM (msg : String) : TotalM (printM msg) :=
  fun s => ⟨(), addPrintS s msg, rfl⟩

theorem totalM_ite (c : Prop) [Decidable c] {m1 m2 : M α}
    (h1 : TotalM m1) (h2 : TotalM m2) : TotalM (if c then m1 else m2) := by
  by_cases hc : c
  · simpa [hc] using h1
  · simpa [hc] using h2

theorem totalM_tryCatch {m : M α} {h : Err → M α}
    (hh : ∀ e, TotalM (h e)) : TotalM (tryCatchM m h) := by
  intro s
  unfold tryCatchM
  cases hm : m s with
  | ok a s' => exact ⟨a, s', rfl⟩
  | err e s' => exact hh e s'

theorem totalM_show_summary (cfg : Cfg) : TotalM (show_summary cfg) := by
  unfold show_summary
  exact totalM_ite _ (totalM_printM _) (totalM_printM _)

theorem totalM_cleanup_db (cfg : Cfg) : TotalM (cleanup_db cfg) := by
  unfold cleanup_db
  apply totalM_bind totalM_getS
  intro s
  apply totalM_ite
  · exact totalM_tryCatch (fun e => totalM_printM _)
  · exact totalM_pure _

theorem totalM_cleanup_tmpdirs_loop (cfg : Cfg) (l : List FPath) :
    TotalM (cleanup_tmpdirs_loop cfg l) := by
  induction l with
  | nil => exact totalM_pure _
  | cons td rest ih =>
      unfold cleanup_tmpdirs_loop
      apply totalM_bind
      · exact totalM_tryCatch (fun e => totalM_printM _)
      · intro _
        exact ih

theorem totalM_cleanup_tmpdirs (cfg : Cfg) : TotalM (cleanup_tmpdirs cfg) := by
  unfold cleanup_tmpdirs
  apply totalM_bind totalM_getS
  intro s
  exact totalM_cleanup_tmpdirs_loop _ _

/-! ## Sequencing lemmas for the step pipeline -/

theorem seqAll_cons_apply (m : M Unit) (l : List (M Unit)) (s : S) :
    seqAll (m :: l) s = match m s with
      | .ok _ s' => seqAll l s'
      | .err e s' => .err e s' := by
  show M.bind m (fun _ => seqAll l) s = _
  unfold M.bind
  cases m s <;> rfl

theorem seqAll_ok_append (l1 l2 : List (M Unit)) (s s1 : S)
    (h : seqAll l1 s = .ok () s1) :
    seqAll (l1 ++ l2) s = seqAll l2 s1 := by
  induction l1 generalizing s with
  | nil =>
      have : s = s1 := by
        have h' : Res.ok () s = Res.ok () s1 := h
        cases h'
        rfl
      rw [List.nil_append, this]
  | cons m rest ih =>
      rw [List.cons_append, seqAll_cons_apply]
      rw [seqAll_cons_apply] at h
      cases hm : m s with
      | ok a s2 =>
          rw [hm] at h
          exact ih s2 h
      | err e s2 =>
          rw [hm] at h
          exact absurd h (by intro hc; cases hc)

theorem seqAll_err_append (l1 l2 : List (M Unit)) (e : Err) (s s2 : S)
    (h : seqAll l1 s = .err e s2) :
    seqAll (l1 ++ l2) s = .err e s2 := by
  induction l1 generalizing s with
  | nil =>
      exact absurd h (by intro hc; cases hc)
  | cons m rest ih =>
      rw [List.cons_append, seqAll_cons_apply]
      rw [seqAll_cons_apply] at h
      cases hm : m s with
      | ok a s1 =>
          rw [hm] at h
          exact ih s1 h
      | err e1 s1 =>
          rw [hm] at h
          exact h

/-! ## Claim theorems -/

/-- C8: for every call of the command executor: in SIMULATE mode
(dry-run requested while the executing flag is unset) nothing is
spawned, the filesystem is untouched, and a synthetic zero-status
result is returned immediately after printing the description; in
PERFORM mode the command is spawned synchronously and, on a non-zero
exit status, a `CalledProcessError` carrying the exit code is raised
when checking is enabled, while the failing result is returned when
checking is disabled. -/
theorem runCmd_spec (cmd : String) (cap chk dry : Bool) (s : S) :
    (dry = true → s.st.executing = false →
      runCmd cmd cap chk dry s =
        .ok { args := cmd, returncode := 0, stdout := "", stderr := "" }
          (addPrintS s ("Would run command: " ++ cmd)) ∧
      (Res.state (runCmd cmd cap chk dry s)).world.spawned = s.world.spawned ∧
      (Res.state (runCmd cmd cap chk dry s)).world.fs = s.world.fs) ∧
    ((dry = false ∨ s.st.executing = true) →
      (chk = true → (s.env.cmdResult cmd).1 ≠ 0 →
        runCmd cmd cap chk dry s =
          .err (.calledProcessError (s.env.cmdResult cmd).1 (s.env.cmdResult cmd).2.2)
            (addSpawnS s cmd)) ∧
      (chk = false →
        runCmd cmd cap chk dry s =
          .ok { args := cmd, returncode := (s.env.cmdResult cmd).1,
                stdout := (s.env.cmdResult cmd).2.1,
                stderr := (s.env.cmdResult cmd).2.2 } (addSpawnS s cmd)) ∧
      ((s.env.cmdResult cmd).1 = 0 →
        runCmd cmd cap chk dry s =
          .ok { args := cmd, returncode := (s.env.cmdResult cmd).1,
                stdout := (s.env.cmdResult cmd).2.1,
                stderr := (s.env.cmdResult cmd).2.2 } (addSpawnS s cmd))) := by
  constructor
  · intro h1 h2
    have hg : (dry && !s.st.executing) = true := by rw [h1, h2]; rfl
    have heq : runCmd cmd cap chk dry s =
        .ok { args := cmd, returncode := 0, stdout := "", stderr := "" }
          (addPrintS s ("Would run command: " ++ cmd)) := by
      unfold runCmd
      rw [if_pos hg]
    exact ⟨heq, by rw [heq]; rfl, by rw [heq]; rfl⟩
  · intro h
    have hg : (dry && !s.st.executing) = false := by
      rcases h with h | h
      · rw [h]; rfl
      · rw [h]; exact Bool.and_false dry
    refine ⟨?_, ?_, ?_⟩
    · intro hchk hne
      unfold runCmd
      rw [if_neg (by rw [hg]; exact Bool.false_ne_true)]
      dsimp only
      rw [if_pos ⟨hchk, hne⟩]
      rfl
    · intro hchk
      unfold runCmd
      rw [if_neg (by rw [hg]; exact Bool.false_ne_true)]
      dsimp only
      rw [if_neg (by intro hc; rw [hchk] at hc; exact Bool.false_ne_true hc.1)]
      rfl
    · intro hrc
      unfold runCmd
      rw [if_neg (by rw [hg]; exact Bool.false_ne_true)]
      dsimp only
      rw [if_neg (by intro hc; exact hc.2 hrc)]
      rfl

/-- Witness for `runCmd_spec`: a simulate-mode call prints and spawns
nothing, and a perform-mode call on a failing command raises the error
carrying the exit code. -/
theorem runCmd_spec_witness :
    (runCmd "apt install -y nginx" false true true sSim =
      .ok { args := "apt install -y nginx", returncode := 0, stdout := "", stderr := "" }
        (addPrintS sSim "Would run command: apt install -y nginx")) ∧
    (runCmd "apt install -y nginx" false true false sFail7 =
      .err (.calledProcessError 7 "boom") (addSpawnS sFail7 "apt install -y nginx")) := by
  constructor
  · exact ((runCmd_spec "apt install -y nginx" false true true sSim).1 rfl rfl).1
  · exact ((runCmd_spec "apt install -y nginx" false true false sFail7).2
      (Or.inl rfl)).1 rfl (by decide)

/-- C9: the signal handler logs the received signal, invokes the
cleanup routine exactly against the last-known configuration and the
live run state (absorbing any cleanup exception), and exits with
status 1; when the signal arrives before the configuration is
resolved (`last_cfg = none`) the cleanup raises KeyError on its first
configuration access and mutates nothing: filesystem, spawn trace and
removal trace are untouched and only log messages are emitted. -/
theorem signal_handler_spec (sig : Nat) (s : S) :
    (signal_handler sig s).1 = 1 ∧
    (signal_handler sig s).2 =
      runAbsorb (cleanup_full s.st.last_cfg) "Cleanup failed during signal handling"
        (addPrintS s ("Received signal " ++ toString sig ++ ". Attempting cleanup...")) ∧
    ccOf (signal_handler sig s).2 = ccOf s + 1 ∧
    (s.st.last_cfg = none →
      (signal_handler sig s).2.world.fs = s.world.fs ∧
      (signal_handler sig s).2.world.spawned = s.world.spawned ∧
      (signal_handler sig s).2.world.rmtreeCalls = s.world.rmtreeCalls ∧
      (signal_handler sig s).2.world.printed =
        s.world.printed ++
          ["Received signal " ++ toString sig ++ ". Attempting cleanup...",
           "Running full cleanup (Option A)...",
           "Cleanup failed during signal handling"]) := by
  have h2 : (signal_handler sig s).2 =
      runAbsorb (cleanup_full s.st.last_cfg) "Cleanup failed during signal handling"
        (addPrintS s ("Received signal " ++ toString sig ++ ". Attempting cleanup...")) := rfl
  refine ⟨rfl, h2, ?_, ?_⟩
  · rw [h2]
    exact ccOf_runAbsorb_cleanup _ _ _
  · intro hnone
    rw [h2, hnone]
    refine ⟨?_, ?_, ?_, ?_⟩ <;>
      simp [runAbsorb, cleanup_full, cleanup_rest, bumpCleanupM, modifyW, printM,
        addPrintS, throwM, M.bind_apply, M.bind, Bind.bind]

/-- Witness for `signal_handler_spec`: an early interrupt (before the
configuration is resolved) exits 1 with no mutation. -/
theorem signal_handler_spec_witness :
    sSim.st.last_cfg = none ∧
    (signal_handler 2 sSim).1 = 1 ∧
    (signal_handler 2 sSim).2.world.fs = sSim.world.fs ∧
    (signal_handler 2 sSim).2.world.spawned = sSim.world.spawned := by
  obtain ⟨ha, hb, hc, hd⟩ := signal_handler_spec 2 sSim
  obtain ⟨h1, h2, h3, h4⟩ := hd rfl
  exact ⟨rfl, ha, h1, h2⟩

/-- C2 evidence (code bug): in dry-run mode `download_and_extract_wp`
calls `tempfile.mkdtemp` before its dry-run check, so a real directory
appears on the filesystem and is recorded in the run state, although
nothing is spawned and only the would-download description is printed.
This contradicts the no-mutation dry-run contract the program itself
announces. -/
theorem dryrun_step_mutates_fs :
    Res.isOk (download_and_extract_wp wpUrl webRootB true false sSim) = true ∧
    (Res.state (download_and_extract_wp wpUrl webRootB true false sSim)).world.spawned = [] ∧
    fsLookup sSim.world.fs ["tmp", "wpdl_0"] = none ∧
    fsLookup (Res.state (download_and_extract_wp wpUrl webRootB true false sSim)).world.fs
      ["tmp", "wpdl_0"] = some .dir ∧
    (Res.state (download_and_extract_wp wpUrl webRootB true false sSim)).st.tmp_dirs =
      [["tmp", "wpdl_0"]] ∧
    (Res.state (download_and_extract_wp wpUrl webRootB true false sSim)).world.printed =
      ["Would download WordPress from " ++ wpUrl ++ " to /tmp/wpdl_0/wp.tar.gz"] := by
  refine ⟨?_, ?_, ?_, ?_, ?_, ?_⟩ <;> rfl

/-- C6 evidence (code bug): Scenario B — perform mode, overwrite
disabled, pre-existing web root.  The deployment step raises the
conflict error without having created anything (`created_paths` stays
empty), yet the cleanup removes the pre-existing web-root directory
(the code tests mere existence, contradicting its own comment "remove
web root if it was created").  The process exits 1. -/
theorem conflict_cleanup_removes_preexisting_webroot :
    (mainRun argsExec sScenB).1 = 1 ∧
    fsLookup sScenB.world.fs webRootB = some .dir ∧
    (mainRun argsExec sScenB).2.st.created_paths = [] ∧
    fsLookup (mainRun argsExec sScenB).2.world.fs webRootB = none ∧
    (mainRun argsExec sScenB).2.world.rmtreeCalls = [webRootB] ∧
    (mainRun argsExec sScenB).2.world.cleanupCalls = 1 := by
  refine ⟨?_, ?_, ?_, ?_, ?_, ?_⟩ <;> rfl

/-- C10 counterexample: a complete dry run records a temporary download
directory, reaches the final phase, but never attempts its removal:
the rmtree trace stays empty, only a would-remove message is printed,
and the directory survives the run. -/
theorem dryrun_tmpdir_never_removed :
    (mainRun argsDry sSim).1 = 0 ∧
    (mainRun argsDry sSim).2.st.tmp_dirs = [["tmp", "wpdl_0"]] ∧
    fsLookup (mainRun argsDry sSim).2.world.fs ["tmp", "wpdl_0"] = some .dir ∧
    (mainRun argsDry sSim).2.world.rmtreeCalls = [] ∧
    "Would remove temporary dir /tmp/wpdl_0" ∈ (mainRun argsDry sSim).2.world.printed := by
  refine ⟨rfl, rfl, rfl, rfl, ?_⟩
  decide

theorem take_succ_get (l : List (M Unit)) (k : Nat) (hk : k < l.length) :
    l.take (k + 1) = l.take k ++ [l.get ⟨k, hk⟩] := by
  induction l generalizing k with
  | nil => cases hk
  | cons a t ih =>
      cases k with
      | zero => rfl
      | succ k =>
          have hk' : k < t.length := Nat.lt_of_succ_lt_succ hk
          simp only [List.take_succ_cons, List.get, ih k hk', List.cons_append]

/-- C1 counterexample: when the download inside step 6 fails, steps 1-5
complete with no temporary directory recorded, but the state the
cleanup is invoked against — the state at the failure point — already
records the temporary directory the failing step created.  So the
cleanup does not run against the RunState as populated through the
completed steps: it runs against a strictly later state. -/
theorem cleanup_sees_failing_step_records :
    Res.isOk (seqAll ((stepsList cfgExec).take 5) sExecDF) = true ∧
    (Res.state (seqAll ((stepsList cfgExec).take 5) sExecDF)).st.tmp_dirs = [] ∧
    Res.isOk (runSteps cfgExec sExecDF) = false ∧
    (Res.state (runSteps cfgExec sExecDF)).st.tmp_dirs = [["tmp", "wpdl_0"]] ∧
    pipelineAndCleanup cfgExec sExecDF =
      (1, finallyTmp cfgExec (runAbsorb (cleanup_full (some cfgExec))
        "Cleanup encountered errors" (Res.state (runSteps cfgExec sExecDF)))) ∧
    (Res.state (runSteps cfgExec sExecDF)).st.tmp_dirs ≠
      (Res.state (seqAll ((stepsList cfgExec).take 5) sExecDF)).st.tmp_dirs := by
  refine ⟨rfl, rfl, rfl, rfl, rfl, by decide⟩

/-- C1 (amended): if the first k steps succeed and step k+1 raises,
then (i) later steps never execute — any continuation of the pipeline
after the failing step yields the same failure in the same state, and
so does the full pipeline; (ii) main's try/except then invokes the
cleanup routine exactly once, against the state at the failure point
(the completed steps' records plus whatever the failing step recorded
before raising), and the process exits 1; (iii) on a run where every
step succeeds the cleanup is never invoked and the exit code is 0. -/
theorem pipeline_abort_on_failure (cfg : Cfg) (k : Nat)
    (hk : k < (stepsList cfg).length) (e : Err) (s0 s1 s2 : S)
    (hpre : seqAll ((stepsList cfg).take k) s0 = .ok () s1)
    (hfail : (stepsList cfg).get ⟨k, hk⟩ s1 = .err e s2) :
    (∀ rest, seqAll ((stepsList cfg).take (k + 1) ++ rest) s0 = .err e s2) ∧
    runSteps cfg s0 = .err e s2 ∧
    pipelineAndCleanup cfg s0 =
      (1, finallyTmp cfg (runAbsorb (cleanup_full (some cfg))
        "Cleanup encountered errors" s2)) ∧
    ccOf (pipelineAndCleanup cfg s0).2 = ccOf s0 + 1 ∧
    (∀ t0 t1, runSteps cfg t0 = .ok () t1 →
      (pipelineAndCleanup cfg t0).1 = 0 ∧
      ccOf (pipelineAndCleanup cfg t0).2 = ccOf t0) := by
  have hstep : seqAll ((stepsList cfg).take (k + 1)) s0 = .err e s2 := by
    rw [take_succ_get (stepsList cfg) k hk]
    rw [seqAll_ok_append _ _ _ _ hpre]
    rw [seqAll_cons_apply, hfail]
  have habort : ∀ rest, seqAll ((stepsList cfg).take (k + 1) ++ rest) s0 = .err e s2 :=
    fun rest => seqAll_err_append _ rest e s0 s2 hstep
  have hrun : runSteps cfg s0 = .err e s2 := by
    show seqAll (stepsList cfg) s0 = .err e s2
    rw [← List.take_append_drop (k + 1) (stepsList cfg)]
    exact habort _
  have hbody : (runSteps cfg >>= fun _ => show_summary cfg) s0 = .err e s2 := by
    show M.bind _ _ s0 = _
    unfold M.bind
    rw [hrun]
  have hpipe : pipelineAndCleanup cfg s0 =
      (1, finallyTmp cfg (runAbsorb (cleanup_full (some cfg))
        "Cleanup encountered errors" s2)) := by
    unfold pipelineAndCleanup
    rw [hbody]
  have hccs1 : ccOf s1 = ccOf s0 := by
    have h := preservesCC_seqAll ((stepsList cfg).take k)
      (fun m hm => preservesCC_memStep cfg m (List.take_subset k (stepsList cfg) hm)) s0
    rw [hpre] at h
    exact h
  have hccs2 : ccOf s2 = ccOf s1 := by
    have h := preservesCC_memStep cfg ((stepsList cfg).get ⟨k, hk⟩)
      (List.get_mem (stepsList cfg) k hk) s1
    rw [hfail] at h
    exact h
  refine ⟨habort, hrun, hpipe, ?_, ?_⟩
  · rw [hpipe]
    show ccOf (finallyTmp cfg _) = ccOf s0 + 1
    rw [ccOf_finallyTmp, ccOf_runAbsorb_cleanup, hccs2, hccs1]
  · intro t0 t1 h
    obtain ⟨a, t2, h2⟩ := totalM_show_summary cfg t1
    cases a
    have hb : (runSteps cfg >>= fun _ => show_summary cfg) t0 = .ok () t2 := by
      show M.bind _ _ t0 = _
      unfold M.bind
      rw [h]
      exact h2
    have hp : pipelineAndCleanup cfg t0 = (0, finallyTmp cfg t2) := by
      unfold pipelineAndCleanup
      rw [hb]
    constructor
    · rw [hp]
    · rw [hp]
      show ccOf (finallyTmp cfg t2) = ccOf t0
      rw [ccOf_finallyTmp]
      have hcc2 := preservesCC_show_summary cfg t1
      rw [h2] at hcc2
      have hcc1 := preservesCC_runSteps cfg t0
      rw [h] at hcc1
      exact hcc2.trans hcc1

/-- Witness for `pipeline_abort_on_failure`: with every command failing
(exit 7), step 1 fails, the pipeline fails in the same state, the run
exits 1 and the cleanup ghost counts exactly one invocation. -/
theorem pipeline_abort_on_failure_witness :
    runSteps cfgExec sFail7 =
      .err (.calledProcessError 7 "boom")
        (addSpawnS sFail7 "apt update && apt upgrade -y") ∧
    (pipelineAndCleanup cfgExec sFail7).1 = 1 ∧
    ccOf (pipelineAndCleanup cfgExec sFail7).2 = 1 := by
  have h := pipeline_abort_on_failure cfgExec 0 (by decide)
    (.calledProcessError 7 "boom") sFail7 sFail7
    (addSpawnS sFail7 "apt update && apt upgrade -y") rfl rfl
  exact ⟨h.2.1, by rw [h.2.2.1], h.2.2.2.1⟩

/-! ## The final temp-directory phase -/

theorem fsLookup_filter_none (fs : Fs) (f : FPath × FsNode → Bool) (p : FPath)
    (h : fsLookup fs p = none) : fsLookup (fs.filter f) p = none := by
  induction fs with
  | nil => rfl
  | cons e rest ih =>
      obtain ⟨q, n⟩ := e
      unfold fsLookup at h
      by_cases hq : q = p
      · rw [if_pos hq] at h
        cases h
      · rw [if_neg hq] at h
        rw [List.filter_cons]
        split
        · unfold fsLookup
          rw [if_neg hq]
          exact ih h
        · exact ih h

theorem attempt_rmtree_mono (cfg : Cfg) (td : FPath) (s : S) (x : FPath)
    (hx : x ∈ s.world.rmtreeCalls) :
    x ∈ (attemptTmpRemove cfg td s).world.rmtreeCalls := by
  unfold attemptTmpRemove
  dsimp only
  split
  · split
    · exact hx
    · split
      · exact List.mem_append_left _ hx
      · exact List.mem_append_left _ hx
  · exact hx

theorem attempt_fs_none (cfg : Cfg) (td : FPath) (s : S) (p : FPath)
    (hp : fsLookup s.world.fs p = none) :
    fsLookup (attemptTmpRemove cfg td s).world.fs p = none := by
  unfold attemptTmpRemove
  dsimp only
  split
  · split
    · exact hp
    · split
      · exact hp
      · exact fsLookup_filter_none _ _ _ hp
  · exact hp

theorem finally_loop_rmtree_mono (cfg : Cfg) (l : List FPath) :
    ∀ s x, x ∈ s.world.rmtreeCalls →
      x ∈ (finally_tmp_loop cfg l s).world.rmtreeCalls := by
  induction l with
  | nil => intro s x hx; exact hx
  | cons td rest ih =>
      intro s x hx
      exact ih _ x (attempt_rmtree_mono cfg td s x hx)

theorem finally_loop_fs_none (cfg : Cfg) (l : List FPath) :
    ∀ s p, fsLookup s.world.fs p = none →
      fsLookup (finally_tmp_loop cfg l s).world.fs p = none := by
  induction l with
  | nil => intro s p hp; exact hp
  | cons td rest ih =>
      intro s p hp
      exact ih _ p (attempt_fs_none cfg td s p hp)

theorem finally_loop_attempts (cfg : Cfg) (hdry : cfg.dry_run = false)
    (l : List FPath) : ∀ s, ∀ td ∈ l,
      td ∈ (finally_tmp_loop cfg l s).world.rmtreeCalls ∨
        fsLookup (finally_tmp_loop cfg l s).world.fs td = none := by
  induction l with
  | nil => intro s td htd; cases htd
  | cons hd rest ih =>
      intro s td htd
      rw [show finally_tmp_loop cfg (hd :: rest) s =
        finally_tmp_loop cfg rest (attemptTmpRemove cfg hd s) from rfl]
      rcases List.mem_cons.mp htd with heq | hmem
      · subst heq
        by_cases hex : fsExists s.world.fs td = true
        · left
          apply finally_loop_rmtree_mono
          unfold attemptTmpRemove
          rw [if_pos hex, if_neg (by rw [hdry]; exact Bool.false_ne_true)]
          dsimp only
          split
          · exact List.mem_append_right _ (List.mem_singleton_self td)
          · exact List.mem_append_right _ (List.mem_singleton_self td)
        · right
          apply finally_loop_fs_none
          have hnone : fsLookup s.world.fs td = none := by
            unfold fsExists at hex
            cases h : fsLookup s.world.fs td with
            | none => rfl
            | some n => rw [h] at hex; exact absurd rfl hex
          exact attempt_fs_none cfg td s td hnone
      · exact ih _ td hmem

theorem attempt_dry_fs (cfg : Cfg) (hdry : cfg.dry_run = true) (td : FPath) (s : S) :
    (attemptTmpRemove cfg td s).world.fs = s.world.fs ∧
    (attemptTmpRemove cfg td s).world.rmtreeCalls = s.world.rmtreeCalls := by
  unfold attemptTmpRemove
  rw [hdry]
  dsimp only
  split
  · exact ⟨rfl, rfl⟩
  · exact ⟨rfl, rfl⟩

theorem attempt_printed_mono (cfg : Cfg) (td : FPath) (s : S) (x : String)
    (hx : x ∈ s.world.printed) : x ∈ (attemptTmpRemove cfg td s).world.printed := by
  unfold attemptTmpRemove
  dsimp only
  split
  · split
    · exact List.mem_append_left _ hx
    · split
      · exact List.mem_append_left _ hx
      · exact hx
  · exact hx

theorem finally_loop_printed_mono (cfg : Cfg) (l : List FPath) :
    ∀ s x, x ∈ s.world.printed →
      x ∈ (finally_tmp_loop cfg l s).world.printed := by
  induction l with
  | nil => intro s x hx; exact hx
  | cons td rest ih =>
      intro s x hx
      exact ih _ x (attempt_printed_mono cfg td s x hx)

theorem finally_loop_dry (cfg : Cfg) (hdry : cfg.dry_run = true) (l : List FPath) :
    ∀ s, (finally_tmp_loop cfg l s).world.fs = s.world.fs ∧
      (finally_tmp_loop cfg l s).world.rmtreeCalls = s.world.rmtreeCalls ∧
      (∀ td ∈ l, fsExists s.world.fs td = true →
        ("Would remove temporary dir " ++ renderPath td) ∈
          (finally_tmp_loop cfg l s).world.printed) := by
  induction l with
  | nil =>
      intro s
      exact ⟨rfl, rfl, fun td htd => absurd htd (List.not_mem_nil td)⟩
  | cons hd rest ih =>
      intro s
      obtain ⟨hfs, hrm, hpr⟩ := ih (attemptTmpRemove cfg hd s)
      obtain ⟨hafs, harm⟩ := attempt_dry_fs cfg hdry hd s
      refine ⟨hfs.trans hafs, hrm.trans harm, ?_⟩
      intro td htd hex
      rw [show finally_tmp_loop cfg (hd :: rest) s =
        finally_tmp_loop cfg rest (attemptTmpRemove cfg hd s) from rfl]
      rcases List.mem_cons.mp htd with heq | hmem
      · subst heq
        apply finally_loop_printed_mono
        unfold attemptTmpRemove
        rw [if_pos hex, if_pos (by rw [hdry])]
        exact List.mem_append_right _
          (List.mem_singleton_self ("Would remove temporary dir " ++ renderPath td))
      · exact hpr td hmem (by rw [hafs]; exact hex)

/-- C10 (amended): whatever the outcome of the pipeline, `main` ends
with the temp-directory phase: on the success path — where the cleanup
routine is never invoked (the ghost count is unchanged) — and on the
failure path after the cleanup.  The phase visits every temporary
directory recorded in the run state: in perform mode an rmtree is
attempted for each one that still exists (it appears in the attempt
trace, or it no longer exists by the time it is reached); in dry-run
mode nothing is removed or attempted — only a would-remove message is
printed for each surviving directory. -/
theorem final_phase_spec (cfg : Cfg) :
    (∀ s0 s1, runSteps cfg s0 = .ok () s1 →
      ∃ s2, pipelineAndCleanup cfg s0 = (0, finallyTmp cfg s2) ∧
        ccOf s2 = ccOf s0) ∧
    (∀ s0 e s1, runSteps cfg s0 = .err e s1 →
      pipelineAndCleanup cfg s0 =
        (1, finallyTmp cfg (runAbsorb (cleanup_full (some cfg))
          "Cleanup encountered errors" s1))) ∧
    (cfg.dry_run = false → ∀ s, ∀ td ∈ s.st.tmp_dirs,
      td ∈ (finallyTmp cfg s).world.rmtreeCalls ∨
        fsLookup (finallyTmp cfg s).world.fs td = none) ∧
    (cfg.dry_run = true → ∀ s,
      (finallyTmp cfg s).world.fs = s.world.fs ∧
      (finallyTmp cfg s).world.rmtreeCalls = s.world.rmtreeCalls ∧
      (∀ td ∈ s.st.tmp_dirs, fsExists s.world.fs td = true →
        ("Would remove temporary dir " ++ renderPath td) ∈
          (finallyTmp cfg s).world.printed)) := by
  refine ⟨?_, ?_, ?_, ?_⟩
  · intro s0 s1 h
    obtain ⟨a, s2, h2⟩ := totalM_show_summary cfg s1
    cases a
    have hb : (runSteps cfg >>= fun _ => show_summary cfg) s0 = .ok () s2 := by
      show M.bind _ _ s0 = _
      unfold M.bind
      rw [h]
      exact h2
    refine ⟨s2, ?_, ?_⟩
    · unfold pipelineAndCleanup
      rw [hb]
    · have hcc2 := preservesCC_show_summary cfg s1
      rw [h2] at hcc2
      have hcc1 := preservesCC_runSteps cfg s0
      rw [h] at hcc1
      exact hcc2.trans hcc1
  · intro s0 e s1 h
    have hb : (runSteps cfg >>= fun _ => show_summary cfg) s0 = .err e s1 := by
      show M.bind _ _ s0 = _
      unfold M.bind
      rw [h]
    unfold pipelineAndCleanup
    rw [hb]
  · intro hdry s td htd
    exact finally_loop_attempts cfg hdry s.st.tmp_dirs s td htd
  · intro hdry s
    obtain ⟨hfs, hrm, hpr⟩ := finally_loop_dry cfg hdry s.st.tmp_dirs s
    exact ⟨hfs, hrm, hpr⟩

/-- Witness for `final_phase_spec`: in perform mode the surviving
recorded temp directory is attempted; in dry-run mode the filesystem
is untouched. -/
theorem final_phase_spec_witness :
    (["tmp", "wpdl_0"] ∈ sTmp.st.tmp_dirs) ∧
    (["tmp", "wpdl_0"] ∈ (finallyTmp cfgExec sTmp).world.rmtreeCalls ∨
      fsLookup (finallyTmp cfgExec sTmp).world.fs ["tmp", "wpdl_0"] = none) ∧
    (finallyTmp cfgDry sTmp).world.fs = sTmp.world.fs := by
  refine ⟨by decide, ?_, ?_⟩
  · exact (final_phase_spec cfgExec).2.2.1 rfl sTmp ["tmp", "wpdl_0"] (by decide)
  · exact ((final_phase_spec cfgDry).2.2.2 rfl sTmp).1

/-! ## Pointwise bind lemmas -/

theorem getS_apply (s : S) : getS s = .ok s s := rfl

theorem bind_getS_apply (f : S → M α) (s : S) : (getS >>= f) s = f s s := rfl

theorem bind_ok_apply {m : M α} {f : α → M β} {s s' : S} {a : α}
    (h : m s = .ok a s') : (m >>= f) s = f a s' := by
  show M.bind m f s = _
  unfold M.bind
  rw [h]

theorem bind_err_apply {m : M α} {f : α → M β} {s s' : S} {e : Err}
    (h : m s = .err e s') : (m >>= f) s = .err e s' := by
  show M.bind m f s = _
  unfold M.bind
  rw [h]

/-- C7 counterexample: the web-root removal (undo action 1) raises; the
exception propagates out of `cleanup_full`, so none of the remaining
undo actions run: the database drop is never spawned, the recorded
temp directory is never attempted and survives.  One undo failure does
block the rest. -/
theorem cleanup_failure_blocks_remaining_undos :
    Res.isOk (cleanup_full (some cfgExec) sCleanupFail) = false ∧
    (Res.state (cleanup_full (some cfgExec) sCleanupFail)).world.rmtreeCalls =
      [webRootB] ∧
    (Res.state (cleanup_full (some cfgExec) sCleanupFail)).world.spawned = [] ∧
    fsLookup (Res.state (cleanup_full (some cfgExec) sCleanupFail)).world.fs
      ["tmp", "wpdl_0"] = some .dir := by
  refine ⟨rfl, rfl, rfl, rfl⟩

/-- C7 (amended): only the database-drop and temp-directory undo
phases are individually exception-protected: each always completes
without raising — a failing database drop is caught and logged and the
subsequent temp-directory phase still runs, by the sequencing shown —
whereas a failure in the unprotected web-root / nginx removals
propagates and prevents all remaining undo actions (see the
counterexample for the claim as originally stated). -/
theorem cleanup_protected_phases (cfg : Cfg) :
    (∀ s, ∃ s1, cleanup_db cfg s = .ok () s1 ∧
      (do cleanup_db cfg; cleanup_tmpdirs cfg : M Unit) s = cleanup_tmpdirs cfg s1) ∧
    (∀ s, ∃ s2, cleanup_tmpdirs cfg s = .ok () s2) ∧
    (∀ s e s1, (cfg.overwrite || s.st.created_db) = true →
      mysql_exec (dropDbSql cfg.db_name cfg.db_user) cfg.dry_run s = .err e s1 →
      cleanup_db cfg s =
        .ok () (addPrintS s1 "Failed to drop DB/user during cleanup")) := by
  refine ⟨?_, ?_, ?_⟩
  · intro s
    obtain ⟨a, s1, h1⟩ := totalM_cleanup_db cfg s
    cases a
    exact ⟨s1, h1, bind_ok_apply h1⟩
  · intro s
    obtain ⟨a, s2, h2⟩ := totalM_cleanup_tmpdirs cfg s
    cases a
    exact ⟨s2, h2⟩
  · intro s e s1 hcond hfail
    unfold cleanup_db
    rw [bind_getS_apply]
    rw [if_pos hcond]
    rw [tryCatchM_apply, hfail]
    rfl

/-- Witness for `cleanup_protected_phases`: with the drop statement
failing, the database phase still returns normally after logging, and
the temp-directory phase still runs and completes. -/
theorem cleanup_protected_phases_witness :
    (cfgExec.overwrite || sDropFail.st.created_db) = true ∧
    cleanup_db cfgExec sDropFail =
      .ok () (addPrintS
        (addSpawnS sDropFail ("sudo mysql -u root -e " ++ dropDbSql "wordpress" "wpuser"))
        "Failed to drop DB/user during cleanup") ∧
    (∃ s2, cleanup_tmpdirs cfgExec sDropFail = .ok () s2) := by
  refine ⟨by decide, ?_, (cleanup_protected_phases cfgExec).2.1 sDropFail⟩
  exact (cleanup_protected_phases cfgExec).2.2 sDropFail
    (.calledProcessError 1 "denied")
    (addSpawnS sDropFail ("sudo mysql -u root -e " ++ dropDbSql "wordpress" "wpuser"))
    (by decide) rfl

/-! ## C5: overwrite policy lemmas -/

theorem modifySt_apply (f : RunState → RunState) (s : S) :
    modifySt f s = .ok () { s with st := f s.st } := rfl

theorem isPrefixOf_self_eq (l : FPath) : l.isPrefixOf l = true := by
  induction l with
  | nil => rfl
  | cons a t ih => simp [List.isPrefixOf, ih]

theorem fsLookup_fsRmtree_self (fs : Fs) (p : FPath) :
    fsLookup (fsRmtree fs p) p = none := by
  induction fs with
  | nil => rfl
  | cons e rest ih =>
      obtain ⟨q, n⟩ := e
      unfold fsRmtree at *
      rw [List.filter_cons]
      split
      · unfold fsLookup
        rw [if_neg ?_]
        · exact ih
        · intro hqp
          subst hqp
          rename_i hkeep
          rw [decide_eq_true_eq] at hkeep
          exact hkeep (by unfold underPath; exact isPrefixOf_self_eq q)
      · exact ih

theorem fsLookup_renameTree_src (fs : Fs) (src dst : FPath)
    (h : ∀ suffix, dst ++ suffix ≠ src) :
    fsLookup (fsRenameTree fs src dst) src = none := by
  induction fs with
  | nil => rfl
  | cons e rest ih =>
      obtain ⟨q, n⟩ := e
      unfold fsRenameTree at *
      rw [List.map_cons]
      dsimp only
      by_cases hq : underPath src q = true
      · rw [if_pos hq]
        unfold fsLookup
        rw [if_neg (h (q.drop src.length))]
        exact ih
      · rw [if_neg hq]
        unfold fsLookup
        rw [if_neg ?_]
        · exact ih
        · intro hqsrc
          subst hqsrc
          exact hq (by unfold underPath; exact isPrefixOf_self_eq q)

theorem fetch_preserves (s : S) :
    ∃ vu s', fetch_latest_wordpress_download_url s = .ok vu s' ∧
      s'.world.fs = s.world.fs ∧ s'.world.spawned = s.world.spawned ∧
      s'.st = s.st ∧ s'.env = s.env := by
  unfold fetch_latest_wordpress_download_url
  cases h : s.env.wpApi with
  | none => exact ⟨_, _, rfl, rfl, rfl, rfl, rfl⟩
  | some vu => exact ⟨vu, s, rfl, rfl, rfl, rfl, rfl⟩

theorem remove_path_dir_perform (p : FPath) (dry : Bool) (s : S)
    (hdir : fsLookup s.world.fs p = some .dir)
    (hexec : s.st.executing = true)
    (hfault : s.env.rmtreeFails p = false) :
    remove_path p dry s = .ok ()
      { s with world := { s.world with
          fs := fsRmtree s.world.fs p,
          rmtreeCalls := s.world.rmtreeCalls ++ [p] } } := by
  unfold remove_path
  rw [bind_getS_apply]
  have hex : fsExists s.world.fs p = true := by
    unfold fsExists
    rw [hdir]
    rfl
  rw [hex, hexec]
  rw [if_neg (by decide)]
  rw [if_neg (by simp)]
  rw [hdir]
  unfold fsRmtreeM
  dsimp only
  rw [if_neg (by rw [hfault]; exact Bool.false_ne_true)]

theorem timestampM_apply (s : S) :
    timestampM s = .ok (clockString s.world.clock)
      { s with world := { s.world with clock := s.world.clock + 1 } } := rfl

theorem dropLast_append_getLastD (l : FPath) (h : l ≠ []) :
    l.dropLast ++ [l.getLastD ""] = l := by
  induction l with
  | nil => exact absurd rfl h
  | cons a t ih =>
      cases t with
      | nil => rfl
      | cons b t2 =>
          have ih2 := ih (by intro hc; cases hc)
          rw [show (a :: b :: t2).dropLast = a :: (b :: t2).dropLast from rfl,
            List.cons_append]
          rw [show (a :: b :: t2).getLastD "" = (b :: t2).getLastD "" from by
            simp [List.getLastD_cons]]
          rw [ih2]

theorem bak_fresh (p : FPath) (ts : String) (hne : p ≠ []) :
    ∀ suffix, (p.dropLast ++ [lastName p ++ ".bak-" ++ ts]) ++ suffix ≠ p := by
  intro suffix h
  have hplen : 1 ≤ p.length := by
    cases p with
    | nil => exact absurd rfl hne
    | cons a t => simp
  have hd : p.dropLast.length = p.length - 1 := List.length_dropLast p
  have hlen : (p.dropLast ++ [lastName p ++ ".bak-" ++ ts]).length + suffix.length
      = p.length := by
    rw [← List.length_append, h]
  have hbak : (p.dropLast ++ [lastName p ++ ".bak-" ++ ts]).length = p.length := by
    rw [List.length_append, hd]
    simp only [List.length_singleton]
    omega
  have hsuf : suffix = [] := by
    apply List.eq_nil_of_length_eq_zero
    omega
  subst hsuf
  rw [List.append_nil] at h
  have hp := dropLast_append_getLastD p hne
  have hsing := List.append_cancel_left (h.trans hp.symm)
  have hnm : lastName p ++ ".bak-" ++ ts = p.getLastD "" := by
    injection hsing
  have hlen2 : (lastName p ++ ".bak-" ++ ts).length = (p.getLastD "").length := by
    rw [hnm]
  rw [String.length_append, String.length_append] at hlen2
  have h5 : (".bak-" : String).length = 5 := rfl
  have hlast : (lastName p).length = (p.getLastD "").length := rfl
  omega

theorem backup_path_exists_apply (p : FPath) (s : S)
    (hex : fsExists s.world.fs p = true) :
    backup_path p s =
      .ok (some (p.dropLast ++ [lastName p ++ ".bak-" ++ clockString s.world.clock]))
        { s with world := { s.world with
            fs := fsRenameTree s.world.fs p
              (p.dropLast ++ [lastName p ++ ".bak-" ++ clockString s.world.clock]),
            clock := s.world.clock + 1 } } := by
  unfold backup_path
  rw [bind_getS_apply, hex]
  rw [if_neg (by decide)]
  rw [bind_ok_apply (timestampM_apply s)]
  dsimp only
  rfl

/-! ## Association-list and mkdir lemmas -/

theorem fsLookup_fsSet_same (fs : Fs) (p : FPath) (n : FsNode) :
    fsLookup (fsSet fs p n) p = some n := by
  induction fs with
  | nil =>
      unfold fsSet fsLookup
      rw [if_pos rfl]
  | cons e rest ih =>
      obtain ⟨q, m⟩ := e
      unfold fsSet
      by_cases hq : q = p
      · rw [if_pos hq]
        unfold fsLookup
        rw [if_pos rfl]
      · rw [if_neg hq]
        unfold fsLookup
        rw [if_neg hq]
        exact ih

theorem fsLookup_fsSet_other (fs : Fs) (p q : FPath) (n : FsNode) (h : q ≠ p) :
    fsLookup (fsSet fs q n) p = fsLookup fs p := by
  induction fs with
  | nil =>
      unfold fsSet fsLookup
      rw [if_neg h]
      rfl
  | cons e rest ih =>
      obtain ⟨r, m⟩ := e
      unfold fsSet
      by_cases hr : r = q
      · rw [if_pos hr]
        unfold fsLookup
        rw [if_neg h, if_neg (by rw [hr]; exact h)]
      · rw [if_neg hr]
        unfold fsLookup
        by_cases hrp : r = p
        · rw [if_pos hrp, if_pos hrp]
        · rw [if_neg hrp, if_neg hrp]
          exact ih

theorem fsExists_fsEnsureDir_self (fs : Fs) (q : FPath) :
    fsExists (fsEnsureDir fs q) q = true := by
  unfold fsEnsureDir
  split
  · assumption
  · unfold fsExists
    rw [fsLookup_fsSet_same]
    rfl

theorem fsExists_fsEnsureDir_mono (fs : Fs) (q r : FPath)
    (h : fsExists fs r = true) : fsExists (fsEnsureDir fs q) r = true := by
  unfold fsEnsureDir
  split
  · exact h
  · unfold fsExists at h ⊢
    by_cases hq : q = r
    · rw [hq, fsLookup_fsSet_same]
      rfl
    · rw [fsLookup_fsSet_other fs r q .dir hq]
      exact h

theorem fsLookup_fsEnsureDir_other (fs : Fs) (q p : FPath) (h : q ≠ p) :
    fsLookup (fsEnsureDir fs q) p = fsLookup fs p := by
  unfold fsEnsureDir
  split
  · rfl
  · exact fsLookup_fsSet_other fs p q .dir h

theorem foldl_ensure_mono (l : List FPath) :
    ∀ fs r, fsExists fs r = true →
      fsExists (l.foldl fsEnsureDir fs) r = true := by
  induction l with
  | nil => intro fs r h; exact h
  | cons a t ih =>
      intro fs r h
      exact ih _ r (fsExists_fsEnsureDir_mono fs a r h)

theorem foldl_ensure_exists (l : List FPath) :
    ∀ fs q, q ∈ l → fsExists (l.foldl fsEnsureDir fs) q = true := by
  induction l with
  | nil => intro fs q hq; cases hq
  | cons a t ih =>
      intro fs q hq
      rcases List.mem_cons.mp hq with heq | hmem
      · subst heq
        exact foldl_ensure_mono t _ q (fsExists_fsEnsureDir_self fs q)
      · exact ih _ q hmem

theorem foldl_ensure_other (l : List FPath) :
    ∀ fs p, (∀ q ∈ l, q ≠ p) →
      fsLookup (l.foldl fsEnsureDir fs) p = fsLookup fs p := by
  induction l with
  | nil => intro fs p _; rfl
  | cons a t ih =>
      intro fs p h
      rw [show (a :: t).foldl fsEnsureDir fs = t.foldl fsEnsureDir (fsEnsureDir fs a) from rfl]
      rw [ih _ p (fun q hq => h q (List.mem_cons_of_mem a hq))]
      exact fsLookup_fsEnsureDir_other fs a p (h a (List.mem_cons_self a t))

theorem self_mem_ancestorPaths (p : FPath) (h : p ≠ []) :
    p ∈ ancestorPaths p := by
  unfold ancestorPaths
  have hlen : 0 < p.length := List.length_pos.mpr h
  refine List.mem_map.mpr ⟨p.length - 1, List.mem_range.mpr (by omega), ?_⟩
  rw [show p.length - 1 + 1 = p.length from by omega]
  exact List.take_length p

theorem ancestor_length_le (p q : FPath) (hq : q ∈ ancestorPaths p) :
    q.length ≤ p.length := by
  unfold ancestorPaths at hq
  obtain ⟨i, _, hq2⟩ := List.mem_map.mp hq
  rw [← hq2, List.length_take]
  omega

theorem fsExists_fsMkdirParents (fs : Fs) (p q : FPath)
    (hq : q ∈ ancestorPaths p) : fsExists (fsMkdirParents fs p) q = true :=
  foldl_ensure_exists (ancestorPaths p) fs q hq

theorem fsExists_fsMkdirParents_self (fs : Fs) (p : FPath) (h : p ≠ []) :
    fsExists (fsMkdirParents fs p) p = true :=
  fsExists_fsMkdirParents fs p p (self_mem_ancestorPaths p h)

theorem fsLookup_fsMkdirParents_longer (fs : Fs) (b p : FPath)
    (h : b.length < p.length) :
    fsLookup (fsMkdirParents fs b) p = fsLookup fs p := by
  apply foldl_ensure_other
  intro q hq heq
  have := ancestor_length_le b q hq
  rw [heq] at this
  omega

/-- C5: perform-mode conflict policy for the two steps whose target
resource can pre-exist.  With overwrite disabled, a pre-existing web
root (resp. a pre-existing site config) makes the step raise the
conflict error with the filesystem and the spawn trace untouched.
With overwrite enabled, the step 6 gate removes the existing web-root
tree (an rmtree recorded in the trace) and the step 7 gate moves the
existing config to a timestamped backup — afterwards the target path
is gone; the step then recreates the resource: the creation phase that
follows the gate re-creates the web-root directory tree (the
configuration file is recreated by the atomic write that follows its
gate, see the atomic-write lemmas). -/
theorem overwrite_policy_spec (cfg : Cfg) (s : S)
    (hexec : s.st.executing = true) :
    (fsExists s.world.fs cfg.web_root = true → cfg.overwrite = false →
      ∃ s', step_download_and_install_wp cfg s =
        .err (.runtimeError ("Web root " ++ renderPath cfg.web_root ++
          " already exists. Use --overwrite to replace.")) s' ∧
        s'.world.fs = s.world.fs ∧ s'.world.spawned = s.world.spawned) ∧
    (fsExists s.world.fs cfg.nginx_conf = true → cfg.overwrite = false →
      step_configure_nginx cfg s =
        .err (.runtimeError ("Nginx config " ++ renderPath cfg.nginx_conf ++
          " exists. Use --overwrite to replace."))
          { s with st := { s.st with nginx_conf_path := some cfg.nginx_conf } }) ∧
    (fsLookup s.world.fs cfg.web_root = some .dir → cfg.overwrite = true →
      s.env.rmtreeFails cfg.web_root = false →
      wpOverwriteGate cfg s = .ok ()
        { s with world := { s.world with
            fs := fsRmtree s.world.fs cfg.web_root,
            rmtreeCalls := s.world.rmtreeCalls ++ [cfg.web_root] } } ∧
      fsLookup (fsRmtree s.world.fs cfg.web_root) cfg.web_root = none) ∧
    (fsExists s.world.fs cfg.nginx_conf = true → cfg.overwrite = true →
      cfg.nginx_conf ≠ [] →
      ∃ s', nginxOverwriteGate cfg s = .ok () s' ∧
        fsLookup s'.world.fs cfg.nginx_conf = none) ∧
    (cfg.dry_run = false →
      wpCreateRoot cfg s = .ok ()
        { s with
          world := { s.world with fs := fsMkdirParents s.world.fs cfg.web_root },
          st := { s.st with created_paths := s.st.created_paths ++ [cfg.web_root] } } ∧
      (cfg.web_root ≠ [] →
        fsExists (fsMkdirParents s.world.fs cfg.web_root) cfg.web_root = true)) := by
  refine ⟨?_, ?_, ?_, ?_, ?_⟩
  · intro hex hov
    obtain ⟨vu, s', hf, hfs, hsp, hst, _⟩ :=
      fetch_preserves { s with st := { s.st with web_root := some cfg.web_root } }
    have hex' : fsExists s'.world.fs cfg.web_root = true := by
      rw [hfs]
      exact hex
    have hgate : wpOverwriteGate cfg s' =
        .err (.runtimeError ("Web root " ++ renderPath cfg.web_root ++
          " already exists. Use --overwrite to replace.")) s' := by
      unfold wpOverwriteGate
      rw [bind_getS_apply]
      rw [if_pos hex']
      rw [if_neg (by rw [hov]; exact Bool.false_ne_true)]
      rfl
    refine ⟨s', ?_, hfs.trans rfl, hsp.trans rfl⟩
    unfold step_download_and_install_wp
    rw [bind_ok_apply (modifySt_apply _ s)]
    rw [bind_ok_apply hf]
    rw [bind_err_apply hgate]
  · intro hex hov
    have hgate : nginxOverwriteGate cfg
        { s with st := { s.st with nginx_conf_path := some cfg.nginx_conf } } =
        .err (.runtimeError ("Nginx config " ++ renderPath cfg.nginx_conf ++
          " exists. Use --overwrite to replace."))
          { s with st := { s.st with nginx_conf_path := some cfg.nginx_conf } } := by
      unfold nginxOverwriteGate
      rw [bind_getS_apply]
      rw [if_pos (show fsExists _ cfg.nginx_conf = true from hex)]
      rw [if_neg (by rw [hov]; exact Bool.false_ne_true)]
      rfl
    unfold step_configure_nginx
    rw [bind_ok_apply (modifySt_apply _ s)]
    dsimp only
    rw [bind_err_apply hgate]
  · intro hdir hov hfault
    have hex : fsExists s.world.fs cfg.web_root = true := by
      unfold fsExists
      rw [hdir]
      rfl
    constructor
    · unfold wpOverwriteGate
      rw [bind_getS_apply]
      rw [if_pos hex]
      rw [if_pos hov]
      exact remove_path_dir_perform cfg.web_root cfg.dry_run s hdir hexec hfault
    · exact fsLookup_fsRmtree_self _ _
  · intro hex hov hne
    refine ⟨{ s with world := { s.world with
        fs := fsRenameTree s.world.fs cfg.nginx_conf
          (cfg.nginx_conf.dropLast ++
            [lastName cfg.nginx_conf ++ ".bak-" ++ clockString s.world.clock]),
        clock := s.world.clock + 1 } }, ?_, ?_⟩
    · unfold nginxOverwriteGate
      rw [bind_getS_apply]
      rw [if_pos hex]
      rw [if_pos hov]
      rw [bind_ok_apply (backup_path_exists_apply cfg.nginx_conf s hex)]
      rfl
    · exact fsLookup_renameTree_src _ _ _
        (bak_fresh cfg.nginx_conf (clockString s.world.clock) hne)
  · intro hdry
    constructor
    · unfold wpCreateRoot
      rw [bind_getS_apply]
      rw [if_neg (by rw [hdry]; exact Bool.false_ne_true)]
      rfl
    · intro hne
      exact fsExists_fsMkdirParents_self s.world.fs cfg.web_root hne

/-- Witness for `overwrite_policy_spec`: Scenario B input — the
conflict branch raises without touching the filesystem, and the
overwrite branch removes the pre-existing web root. -/
theorem overwrite_policy_spec_witness :
    fsExists sScenBExec.world.fs cfgExec.web_root = true ∧
    (∃ s', step_download_and_install_wp cfgExec sScenBExec =
      .err (.runtimeError ("Web root /var/www/example.com already exists. Use --overwrite to replace.")) s' ∧
      s'.world.fs = sScenBExec.world.fs ∧
      s'.world.spawned = sScenBExec.world.spawned) ∧
    fsLookup (fsRmtree sScenBExec.world.fs cfgOver.web_root) cfgOver.web_root = none := by
  have h1 := (overwrite_policy_spec cfgExec sScenBExec rfl).1 rfl rfl
  have h3 := ((overwrite_policy_spec cfgOver sScenBExec rfl).2.2.1 rfl rfl rfl).2
  exact ⟨rfl, h1, h3⟩

theorem fsMkdirParentsM_apply (p : FPath) (s : S) :
    fsMkdirParentsM p s =
      .ok () { s with world := { s.world with fs := fsMkdirParents s.world.fs p } } := rfl

theorem fsWriteFileM_ok (q : FPath) (d : String) (s : S)
    (h : s.env.writeFails q = false) :
    fsWriteFileM q d s = .ok ()
      { s with world := { s.world with
          fs := fsSet s.world.fs q (.file d defaultCreateMode) } } := by
  unfold fsWriteFileM
  rw [if_neg (by rw [h]; exact Bool.false_ne_true)]

theorem fsWriteFileM_fault (q : FPath) (d : String) (s : S)
    (h : s.env.writeFails q = true) :
    fsWriteFileM q d s = .err (.osError "write failed")
      { s with world := { s.world with
          fs := fsSet s.world.fs q (.file (s.env.partialData d) defaultCreateMode) } } := by
  unfold fsWriteFileM
  rw [if_pos h]

theorem fsChmodM_ok_file (q : FPath) (mode : Nat) (s : S) (c : String) (cm : Nat)
    (hcf : s.env.chmodFails q = false)
    (hl : fsLookup s.world.fs q = some (.file c cm)) :
    fsChmodM q mode s = .ok ()
      { s with world := { s.world with fs := fsSet s.world.fs q (.file c mode) } } := by
  unfold fsChmodM
  rw [if_neg (by rw [hcf]; exact Bool.false_ne_true), hl]

theorem fsChmodM_fault (q : FPath) (mode : Nat) (s : S)
    (hcf : s.env.chmodFails q = true) :
    fsChmodM q mode s = .err (.osError "chmod failed") s := by
  unfold fsChmodM
  rw [if_pos hcf]

theorem fsReplaceM_ok (q r : FPath) (n : FsNode) (s : S)
    (hl : fsLookup s.world.fs q = some n) :
    fsReplaceM q r s = .ok ()
      { s with world := { s.world with
          fs := fsSet (fsRemoveEntry s.world.fs q) r n } } := by
  unfold fsReplaceM
  rw [hl]

theorem clockString_length (n : Nat) : (clockString n).length = n := by
  unfold clockString
  show (List.replicate n 't').length = n
  exact List.length_replicate n 't'

theorem clockString_injective (c1 c2 : Nat)
    (h : clockString c1 = clockString c2) : c1 = c2 := by
  have hl := congrArg String.length h
  rw [clockString_length, clockString_length] at hl
  exact hl

theorem awTmp_name_ne (p : FPath) (c : Nat) :
    ".tmp." ++ lastName p ++ "." ++ clockString c ≠ lastName p := by
  intro h
  have hl := congrArg String.length h
  rw [String.length_append, String.length_append, String.length_append] at hl
  have h5 : (".tmp." : String).length = 5 := rfl
  have h1 : ("." : String).length = 1 := rfl
  omega

theorem awTmp_ne (p : FPath) (c : Nat) (hne : p ≠ []) : awTmp p c ≠ p := by
  intro h
  unfold awTmp at h
  have hp := dropLast_append_getLastD p hne
  have hsing := List.append_cancel_left (h.trans hp.symm)
  have : ".tmp." ++ lastName p ++ "." ++ clockString c = p.getLastD "" := by
    injection hsing
  exact awTmp_name_ne p c this

theorem awTmp_inj (p : FPath) (c1 c2 : Nat) (h : awTmp p c1 = awTmp p c2) :
    c1 = c2 := by
  unfold awTmp at h
  have hsing := List.append_cancel_left h
  have hname : ".tmp." ++ lastName p ++ "." ++ clockString c1 =
      ".tmp." ++ lastName p ++ "." ++ clockString c2 := by
    injection hsing
  have hl := congrArg String.length hname
  rw [String.length_append, String.length_append, String.length_append,
    String.length_append, String.length_append, String.length_append,
    clockString_length, clockString_length] at hl
  omega

theorem dropLast_length_lt (p : FPath) (hne : p ≠ []) :
    p.dropLast.length < p.length := by
  have h1 : 1 ≤ p.length := by
    cases p with
    | nil => exact absurd rfl hne
    | cons a t => simp
  rw [List.length_dropLast]
  omega

theorem awTmp_dropLast (p : FPath) (c : Nat) : (awTmp p c).dropLast = p.dropLast := by
  unfold awTmp
  simp

/-- The write-chmod-rename tail of `atomic_write`, fault-free. -/
theorem aw_tail_ok (q r : FPath) (data : String) (mode : Nat) (t : S)
    (hw : t.env.writeFails q = false) (hc : t.env.chmodFails q = false) :
    (fsWriteFileM q data >>= fun _ => fsChmodM q mode >>= fun _ => fsReplaceM q r) t =
      .ok () { t with world := { t.world with
          fs := fsSet (fsRemoveEntry
              (fsSet (fsSet t.world.fs q (.file data defaultCreateMode))
                q (.file data mode)) q)
            r (.file data mode) } } := by
  rw [bind_ok_apply (fsWriteFileM_ok q data t hw)]
  rw [bind_ok_apply (fsChmodM_ok_file q mode
    { t with world := { t.world with
        fs := fsSet t.world.fs q (.file data defaultCreateMode) } }
    data defaultCreateMode hc (fsLookup_fsSet_same _ _ _))]
  rw [fsReplaceM_ok q r (.file data mode)
    { t with world := { t.world with
        fs := fsSet (fsSet t.world.fs q (.file data defaultCreateMode))
          q (.file data mode) } }
    (fsLookup_fsSet_same _ _ _)]

/-- The tail with a fault during the write. -/
theorem aw_tail_write_fault (q r : FPath) (data : String) (mode : Nat) (t : S)
    (hw : t.env.writeFails q = true) :
    (fsWriteFileM q data >>= fun _ => fsChmodM q mode >>= fun _ => fsReplaceM q r) t =
      .err (.osError "write failed")
        { t with world := { t.world with
            fs := fsSet t.world.fs q
              (.file (t.env.partialData data) defaultCreateMode) } } := by
  rw [bind_err_apply (fsWriteFileM_fault q data t hw)]

/-- The tail with a fault at the chmod: the written temporary file
persists. -/
theorem aw_tail_chmod_fault (q r : FPath) (data : String) (mode : Nat) (t : S)
    (hw : t.env.writeFails q = false) (hc : t.env.chmodFails q = true) :
    (fsWriteFileM q data >>= fun _ => fsChmodM q mode >>= fun _ => fsReplaceM q r) t =
      .err (.osError "chmod failed")
        { t with world := { t.world with
            fs := fsSet t.world.fs q (.file data defaultCreateMode) } } := by
  rw [bind_ok_apply (fsWriteFileM_ok q data t hw)]
  rw [bind_err_apply (fsChmodM_fault q mode
    { t with world := { t.world with
        fs := fsSet t.world.fs q (.file data defaultCreateMode) } } hc)]

/-- The perform-mode run of `atomic_write` with no injected fault:
mkdir parents, write the temporary file, chmod it, rename it over the
destination, consuming one timestamp. -/
theorem atomic_write_perform (p : FPath) (data : String) (mode : Nat)
    (dry : Bool) (s : S)
    (hexec : s.st.executing = true)
    (hw : s.env.writeFails (awTmp p s.world.clock) = false)
    (hc : s.env.chmodFails (awTmp p s.world.clock) = false) :
    atomic_write p data mode dry s = .ok ()
      { s with world := { s.world with
          fs := fsSet (fsRemoveEntry
              (fsSet (fsSet (fsMkdirParents s.world.fs p.dropLast)
                  (awTmp p s.world.clock) (.file data defaultCreateMode))
                (awTmp p s.world.clock) (.file data mode))
              (awTmp p s.world.clock))
            p (.file data mode),
          clock := s.world.clock + 1 } } := by
  unfold atomic_write
  rw [bind_getS_apply]
  rw [if_neg (by rw [hexec]; simp)]
  rw [bind_ok_apply (timestampM_apply s)]
  dsimp only
  rw [bind_ok_apply (fsMkdirParentsM_apply p.dropLast _)]
  exact aw_tail_ok (p.dropLast ++ [".tmp." ++ lastName p ++ "." ++ clockString s.world.clock]) p data mode
    { s with world := { s.world with
        fs := fsMkdirParents s.world.fs p.dropLast,
        clock := s.world.clock + 1 } } hw hc

/-- The perform-mode run with a fault while writing the temporary
file: the partial temporary file persists and an OSError propagates. -/
theorem atomic_write_write_fault (p : FPath) (data : String) (mode : Nat)
    (dry : Bool) (s : S)
    (hexec : s.st.executing = true)
    (hw : s.env.writeFails (awTmp p s.world.clock) = true) :
    atomic_write p data mode dry s = .err (.osError "write failed")
      { s with world := { s.world with
          fs := fsSet (fsMkdirParents s.world.fs p.dropLast)
            (awTmp p s.world.clock)
            (.file (s.env.partialData data) defaultCreateMode),
          clock := s.world.clock + 1 } } := by
  unfold atomic_write
  rw [bind_getS_apply]
  rw [if_neg (by rw [hexec]; simp)]
  rw [bind_ok_apply (timestampM_apply s)]
  dsimp only
  rw [bind_ok_apply (fsMkdirParentsM_apply p.dropLast _)]
  exact aw_tail_write_fault (p.dropLast ++ [".tmp." ++ lastName p ++ "." ++ clockString s.world.clock]) p data mode
    { s with world := { s.world with
        fs := fsMkdirParents s.world.fs p.dropLast,
        clock := s.world.clock + 1 } } hw

/-- The perform-mode run with a fault at the chmod: the fully written
temporary file survives and an OSError propagates. -/
theorem atomic_write_chmod_fault (p : FPath) (data : String) (mode : Nat)
    (dry : Bool) (s : S)
    (hexec : s.st.executing = true)
    (hw : s.env.writeFails (awTmp p s.world.clock) = false)
    (hc : s.env.chmodFails (awTmp p s.world.clock) = true) :
    atomic_write p data mode dry s = .err (.osError "chmod failed")
      { s with world := { s.world with
          fs := fsSet (fsMkdirParents s.world.fs p.dropLast)
            (awTmp p s.world.clock) (.file data defaultCreateMode),
          clock := s.world.clock + 1 } } := by
  unfold atomic_write
  rw [bind_getS_apply]
  rw [if_neg (by rw [hexec]; simp)]
  rw [bind_ok_apply (timestampM_apply s)]
  dsimp only
  rw [bind_ok_apply (fsMkdirParentsM_apply p.dropLast _)]
  exact aw_tail_chmod_fault (p.dropLast ++ [".tmp." ++ lastName p ++ "." ++ clockString s.world.clock]) p data mode
    { s with world := { s.world with
        fs := fsMkdirParents s.world.fs p.dropLast,
        clock := s.world.clock + 1 } } hw hc

/-- C3: in perform mode, with no injected fault, the atomic writer
derives a dot-hidden temporary name in the same directory as the
destination, creates the missing parent directories (every ancestor
exists afterwards), writes the content to the temporary file, sets the
requested permissions on it, then renames it over the destination in
one step — and the destination is untouched by every intermediate
filesystem state, holding its previous content until the rename and
the full new content (with the requested mode) after it.  Temporary
names embed the strictly increasing timestamp counter, so names from
different timestamps are distinct. -/
theorem atomic_write_contract (p : FPath) (data : String) (mode : Nat)
    (dry : Bool) (s : S)
    (hexec : s.st.executing = true)
    (hw : s.env.writeFails (awTmp p s.world.clock) = false)
    (hc : s.env.chmodFails (awTmp p s.world.clock) = false)
    (hne : p ≠ []) :
    atomic_write p data mode dry s = .ok ()
      { s with world := { s.world with
          fs := fsSet (fsRemoveEntry
              (fsSet (fsSet (fsMkdirParents s.world.fs p.dropLast)
                  (awTmp p s.world.clock) (.file data defaultCreateMode))
                (awTmp p s.world.clock) (.file data mode))
              (awTmp p s.world.clock))
            p (.file data mode),
          clock := s.world.clock + 1 } } ∧
    (awTmp p s.world.clock).dropLast = p.dropLast ∧
    awTmp p s.world.clock ≠ p ∧
    (∀ q ∈ ancestorPaths p.dropLast,
      fsExists (fsMkdirParents s.world.fs p.dropLast) q = true) ∧
    fsLookup (fsMkdirParents s.world.fs p.dropLast) p = fsLookup s.world.fs p ∧
    fsLookup (fsSet (fsMkdirParents s.world.fs p.dropLast)
        (awTmp p s.world.clock) (.file data defaultCreateMode)) p
      = fsLookup s.world.fs p ∧
    fsLookup (fsSet (fsSet (fsMkdirParents s.world.fs p.dropLast)
          (awTmp p s.world.clock) (.file data defaultCreateMode))
        (awTmp p s.world.clock) (.file data mode)) p
      = fsLookup s.world.fs p ∧
    fsLookup (fsSet (fsSet (fsMkdirParents s.world.fs p.dropLast)
          (awTmp p s.world.clock) (.file data defaultCreateMode))
        (awTmp p s.world.clock) (.file data mode)) (awTmp p s.world.clock)
      = some (.file data mode) ∧
    fsLookup (fsSet (fsRemoveEntry
          (fsSet (fsSet (fsMkdirParents s.world.fs p.dropLast)
              (awTmp p s.world.clock) (.file data defaultCreateMode))
            (awTmp p s.world.clock) (.file data mode))
          (awTmp p s.world.clock))
        p (.file data mode)) p
      = some (.file data mode) ∧
    (∀ c1 c2 : Nat, awTmp p c1 = awTmp p c2 → c1 = c2) := by
  have hdl := dropLast_length_lt p hne
  have htp := awTmp_ne p s.world.clock hne
  have h1 : fsLookup (fsMkdirParents s.world.fs p.dropLast) p
      = fsLookup s.world.fs p :=
    fsLookup_fsMkdirParents_longer s.world.fs p.dropLast p hdl
  have h2 : fsLookup (fsSet (fsMkdirParents s.world.fs p.dropLast)
      (awTmp p s.world.clock) (.file data defaultCreateMode)) p
      = fsLookup s.world.fs p :=
    (fsLookup_fsSet_other _ p (awTmp p s.world.clock) _ htp).trans h1
  have h3 : fsLookup (fsSet (fsSet (fsMkdirParents s.world.fs p.dropLast)
        (awTmp p s.world.clock) (.file data defaultCreateMode))
      (awTmp p s.world.clock) (.file data mode)) p
      = fsLookup s.world.fs p :=
    (fsLookup_fsSet_other _ p (awTmp p s.world.clock) _ htp).trans h2
  refine ⟨atomic_write_perform p data mode dry s hexec hw hc,
    awTmp_dropLast p s.world.clock, htp,
    fun q hq => fsExists_fsMkdirParents s.world.fs p.dropLast q hq,
    h1, h2, h3, fsLookup_fsSet_same _ _ _, fsLookup_fsSet_same _ _ _,
    fun c1 c2 => awTmp_inj p c1 c2⟩

/-- Witness for `atomic_write_contract` at a concrete input. -/
theorem atomic_write_contract_witness :
    atomic_write awDest "NEW" 420 false sAw = .ok ()
      { sAw with world := { sAw.world with
          fs := fsSet (fsRemoveEntry
              (fsSet (fsSet (fsMkdirParents sAw.world.fs ["etc", "app"])
                  (awTmp awDest 0) (.file "NEW" defaultCreateMode))
                (awTmp awDest 0) (.file "NEW" 420))
              (awTmp awDest 0))
            awDest (.file "NEW" 420),
          clock := 1 } } ∧
    awTmp awDest 0 ≠ awDest ∧
    fsLookup (fsSet (fsSet (fsMkdirParents sAw.world.fs ["etc", "app"])
          (awTmp awDest 0) (.file "NEW" defaultCreateMode))
        (awTmp awDest 0) (.file "NEW" 420)) awDest = fsLookup sAw.world.fs awDest := by
  have h := atomic_write_contract awDest "NEW" 420 false sAw rfl rfl rfl (by decide)
  exact ⟨h.1, h.2.2.1, h.2.2.2.2.2.2.1⟩

/-- C4 counterexample: an I/O error (here at the chmod) after the
temporary file is fully written but before the rename leaves the
destination unchanged — but the fully written temporary file SURVIVES
the failed write; nothing deletes it. -/
theorem atomic_write_tmp_survives :
    Res.isOk (atomic_write awDest "NEW" 420 false sChmodFail) = false ∧
    fsLookup (Res.state (atomic_write awDest "NEW" 420 false sChmodFail)).world.fs
      awDest = some (.file "OLD" 420) ∧
    fsLookup (Res.state (atomic_write awDest "NEW" 420 false sChmodFail)).world.fs
      (awTmp awDest 0) = some (.file "NEW" defaultCreateMode) := by
  refine ⟨?_, ?_, ?_⟩ <;> rfl

/-- C4 (amended): when the write of the temporary file or the chmod on
it raises an I/O error — after the temporary file has been created and
before the rename — the destination is left unchanged; the temporary
file, however, is not cleaned up: a partial temporary survives a
failed write and the fully written temporary survives a failed chmod. -/
theorem atomic_write_failure_keeps_destination (p : FPath) (data : String)
    (mode : Nat) (dry : Bool) (s : S)
    (hexec : s.st.executing = true) (hne : p ≠ []) :
    (s.env.writeFails (awTmp p s.world.clock) = true →
      atomic_write p data mode dry s = .err (.osError "write failed")
        { s with world := { s.world with
            fs := fsSet (fsMkdirParents s.world.fs p.dropLast)
              (awTmp p s.world.clock)
              (.file (s.env.partialData data) defaultCreateMode),
            clock := s.world.clock + 1 } } ∧
      fsLookup (fsSet (fsMkdirParents s.world.fs p.dropLast)
          (awTmp p s.world.clock)
          (.file (s.env.partialData data) defaultCreateMode)) p
        = fsLookup s.world.fs p ∧
      fsLookup (fsSet (fsMkdirParents s.world.fs p.dropLast)
          (awTmp p s.world.clock)
          (.file (s.env.partialData data) defaultCreateMode))
          (awTmp p s.world.clock)
        = some (.file (s.env.partialData data) defaultCreateMode)) ∧
    (s.env.writeFails (awTmp p s.world.clock) = false →
      s.env.chmodFails (awTmp p s.world.clock) = true →
      atomic_write p data mode dry s = .err (.osError "chmod failed")
        { s with world := { s.world with
            fs := fsSet (fsMkdirParents s.world.fs p.dropLast)
              (awTmp p s.world.clock) (.file data defaultCreateMode),
            clock := s.world.clock + 1 } } ∧
      fsLookup (fsSet (fsMkdirParents s.world.fs p.dropLast)
          (awTmp p s.world.clock) (.file data defaultCreateMode)) p
        = fsLookup s.world.fs p ∧
      fsLookup (fsSet (fsMkdirParents s.world.fs p.dropLast)
          (awTmp p s.world.clock) (.file data defaultCreateMode))
          (awTmp p s.world.clock)
        = some (.file data defaultCreateMode)) := by
  have hdl := dropLast_length_lt p hne
  have htp := awTmp_ne p s.world.clock hne
  have h1 : fsLookup (fsMkdirParents s.world.fs p.dropLast) p
      = fsLookup s.world.fs p :=
    fsLookup_fsMkdirParents_longer s.world.fs p.dropLast p hdl
  constructor
  · intro hw
    exact ⟨atomic_write_write_fault p data mode dry s hexec hw,
      (fsLookup_fsSet_other _ p (awTmp p s.world.clock) _ htp).trans h1,
      fsLookup_fsSet_same _ _ _⟩
  · intro hw hc
    exact ⟨atomic_write_chmod_fault p data mode dry s hexec hw hc,
      (fsLookup_fsSet_other _ p (awTmp p s.world.clock) _ htp).trans h1,
      fsLookup_fsSet_same _ _ _⟩

/-- Witness for `atomic_write_failure_keeps_destination` at the
concrete chmod-fault input. -/
theorem atomic_write_failure_keeps_destination_witness :
    atomic_write awDest "NEW" 420 false sChmodFail = .err (.osError "chmod failed")
      { sChmodFail with world := { sChmodFail.world with
          fs := fsSet (fsMkdirParents sChmodFail.world.fs ["etc", "app"])
            (awTmp awDest 0) (.file "NEW" defaultCreateMode),
          clock := 1 } } ∧
    fsLookup (fsSet (fsMkdirParents sChmodFail.world.fs ["etc", "app"])
        (awTmp awDest 0) (.file "NEW" defaultCreateMode)) awDest
      = fsLookup sChmodFail.world.fs awDest := by
  have h := (atomic_write_failure_keeps_destination awDest "NEW" 420 false
    sChmodFail rfl (by decide)).2 rfl (by decide)
  exact ⟨h.1, h.2.1⟩
